import Mathlib

/-!
Shallow embedding of the extraction pipeline of `streamlit_app.py`
(the Jumia category scraper).

The embedding mirrors the source file function by function:

* JSON values produced by `json.loads` are modelled by `PyVal`
  (numbers as `Int`: no claim depends on fractional values);
* the parsed HTML document (`BeautifulSoup`) is modelled by `HNode`,
  a tag tree with attribute lists and text nodes;
* `json.loads` itself is abstracted as a parameter
  `loads : String -> Except Unit PyVal` (a malformed block is `.error`);
* Python exceptions that the source does not catch (`TypeError` on
  `re.sub` of a non-string, iterating a non-iterable `@graph` value)
  are modelled with `Except Unit`;
* `fetch_page` plus `BeautifulSoup(html, "lxml")` is abstracted as
  `fetch : String -> Option HNode` (`none` models a failed fetch).
-/

/-- Membership of `sub` as a contiguous substring of `s`, the model of
Python's `sub in s` on strings. -/
def strContains (s sub : String) : Bool :=
  (List.range (s.data.length + 1)).any fun i => sub.data.isPrefixOf (s.data.drop i)

/-- Whitespace characters recognised by Python's `str.strip` / regex `\s`
(the two vertical-tab/form-feed characters are included for fidelity). -/
def pyWsChar (c : Char) : Bool :=
  c == ' ' || c == '\t' || c == '\n' || c == '\r' || c == '\x0b' || c == '\x0c'

/-- Python `str.strip()`: whitespace removed from both ends (written
over the character list so that it reduces in the kernel). -/
def pyStrip (s : String) : String :=
  String.mk (((s.data.dropWhile pyWsChar).reverse.dropWhile pyWsChar).reverse)

/-- Python `str.lower()` (ASCII lowering; every string the source lowers
here is ASCII). -/
def pyLower (s : String) : String := String.mk (s.data.map Char.toLower)

/-- Python `str.isdigit()`: non-empty and all characters are digits. -/
def pyIsDigit (s : String) : Bool := s != "" && s.data.all Char.isDigit

/-- Value of `int(s)` for a digit string `s` (the source guards the call
with `isdigit`, so reading the digits in base 10 is exact). -/
def toNatD (s : String) : Nat :=
  s.data.foldl (fun n c => n * 10 + (c.toNat - '0'.toNat)) 0

/-- Word characters for the regex `\b` boundary: `[A-Za-z0-9_]`. -/
def isWordChar (c : Char) : Bool := c.isAlphanum || c == '_'

/-- Length of the maximal run of digit characters at the head of a list. -/
def digitsCount : List Char → Nat
  | [] => 0
  | c :: r => if c.isDigit then digitsCount r + 1 else 0

/-- Length of the maximal run of whitespace characters at the head. -/
def wsCount : List Char → Nat
  | [] => 0
  | c :: r => if pyWsChar c then wsCount r + 1 else 0

/-- Literal match of `lit` at position `i` of `cs`. -/
def litAt (cs lit : List Char) (i : Nat) : Bool := lit.isPrefixOf (cs.drop i)

/-- Numeric value of a digit-character list (base 10). -/
def natOfDigits (l : List Char) : Nat :=
  l.foldl (fun n c => n * 10 + (c.toNat - '0'.toNat)) 0

/-- Model of a Python value as produced by `json.loads` (numbers are
restricted to integers; no claim depends on fractional values). -/
inductive PyVal where
  | vstr (s : String)
  | vint (n : Int)
  | vbool (b : Bool)
  | vnone
  | vlist (xs : List PyVal)
  | vdict (kvs : List (String × PyVal))

mutual

/-- Structural equality on `PyVal` (deriving is unavailable for this nested
inductive, so the decision procedure is written out). -/
def pyEq : PyVal → PyVal → Bool
  | .vstr a, .vstr b => a == b
  | .vint a, .vint b => a == b
  | .vbool a, .vbool b => a == b
  | .vnone, .vnone => true
  | .vlist xs, .vlist ys => pyEqList xs ys
  | .vdict xs, .vdict ys => pyEqDict xs ys
  | _, _ => false

/-- Pointwise `pyEq` on lists. -/
def pyEqList : List PyVal → List PyVal → Bool
  | [], [] => true
  | x :: xs, y :: ys => pyEq x y && pyEqList xs ys
  | _, _ => false

/-- Pointwise `pyEq` on association lists. -/
def pyEqDict : List (String × PyVal) → List (String × PyVal) → Bool
  | [], [] => true
  | (k, x) :: xs, (l, y) :: ys => k == l && pyEq x y && pyEqDict xs ys
  | _, _ => false

end

mutual

/-- `pyEq` is reflexive. -/
def pyEq_refl : (a : PyVal) → pyEq a a = true
  | .vstr a => by simp [pyEq]
  | .vint a => by simp [pyEq]
  | .vbool a => by simp [pyEq]
  | .vnone => rfl
  | .vlist xs => by simpa [pyEq] using pyEqList_refl xs
  | .vdict xs => by simpa [pyEq] using pyEqDict_refl xs

/-- `pyEqList` is reflexive. -/
def pyEqList_refl : (l : List PyVal) → pyEqList l l = true
  | [] => rfl
  | x :: xs => by simp [pyEqList]; exact ⟨pyEq_refl x, pyEqList_refl xs⟩

/-- `pyEqDict` is reflexive. -/
def pyEqDict_refl : (l : List (String × PyVal)) → pyEqDict l l = true
  | [] => rfl
  | (k, x) :: xs => by simp [pyEqDict]; exact ⟨pyEq_refl x, pyEqDict_refl xs⟩

end

mutual

/-- `pyEq` implies equality. -/
def pyEq_sound : (a b : PyVal) → pyEq a b = true → a = b
  | .vstr a, .vstr b, h => by simp [pyEq] at h; simp [h]
  | .vint a, .vint b, h => by simp [pyEq] at h; simp [h]
  | .vbool a, .vbool b, h => by simp [pyEq] at h; simp [h]
  | .vnone, .vnone, _ => rfl
  | .vlist xs, .vlist ys, h => by
      rw [pyEqList_sound xs ys (by simpa [pyEq] using h)]
  | .vdict xs, .vdict ys, h => by
      rw [pyEqDict_sound xs ys (by simpa [pyEq] using h)]
  | .vstr _, .vint _, h => Bool.noConfusion h
  | .vstr _, .vbool _, h => Bool.noConfusion h
  | .vstr _, .vnone, h => Bool.noConfusion h
  | .vstr _, .vlist _, h => Bool.noConfusion h
  | .vstr _, .vdict _, h => Bool.noConfusion h
  | .vint _, .vstr _, h => Bool.noConfusion h
  | .vint _, .vbool _, h => Bool.noConfusion h
  | .vint _, .vnone, h => Bool.noConfusion h
  | .vint _, .vlist _, h => Bool.noConfusion h
  | .vint _, .vdict _, h => Bool.noConfusion h
  | .vbool _, .vstr _, h => Bool.noConfusion h
  | .vbool _, .vint _, h => Bool.noConfusion h
  | .vbool _, .vnone, h => Bool.noConfusion h
  | .vbool _, .vlist _, h => Bool.noConfusion h
  | .vbool _, .vdict _, h => Bool.noConfusion h
  | .vnone, .vstr _, h => Bool.noConfusion h
  | .vnone, .vint _, h => Bool.noConfusion h
  | .vnone, .vbool _, h => Bool.noConfusion h
  | .vnone, .vlist _, h => Bool.noConfusion h
  | .vnone, .vdict _, h => Bool.noConfusion h
  | .vlist _, .vstr _, h => Bool.noConfusion h
  | .vlist _, .vint _, h => Bool.noConfusion h
  | .vlist _, .vbool _, h => Bool.noConfusion h
  | .vlist _, .vnone, h => Bool.noConfusion h
  | .vlist _, .vdict _, h => Bool.noConfusion h
  | .vdict _, .vstr _, h => Bool.noConfusion h
  | .vdict _, .vint _, h => Bool.noConfusion h
  | .vdict _, .vbool _, h => Bool.noConfusion h
  | .vdict _, .vnone, h => Bool.noConfusion h
  | .vdict _, .vlist _, h => Bool.noConfusion h

/-- `pyEqList` implies equality. -/
def pyEqList_sound : (l m : List PyVal) → pyEqList l m = true → l = m
  | [], [], _ => rfl
  | x :: xs, y :: ys, h => by
      have h' : pyEq x y = true ∧ pyEqList xs ys = true := by simpa [pyEqList] using h
      rw [pyEq_sound x y h'.1, pyEqList_sound xs ys h'.2]
  | [], _ :: _, h => Bool.noConfusion h
  | _ :: _, [], h => Bool.noConfusion h

/-- `pyEqDict` implies equality. -/
def pyEqDict_sound : (l m : List (String × PyVal)) → pyEqDict l m = true → l = m
  | [], [], _ => rfl
  | (k, x) :: xs, (l, y) :: ys, h => by
      have h' : (k == l) = true ∧ pyEq x y = true ∧ pyEqDict xs ys = true := by
        simpa [pyEqDict, and_assoc] using h
      have hk : k = l := by have := h'.1; simpa using this
      rw [hk, pyEq_sound x y h'.2.1, pyEqDict_sound xs ys h'.2.2]
  | [], _ :: _, h => Bool.noConfusion h
  | _ :: _, [], h => Bool.noConfusion h

end

instance : DecidableEq PyVal := fun a b =>
  if h : pyEq a b = true then isTrue (pyEq_sound a b h)
  else isFalse fun e => h (e ▸ pyEq_refl a)

/-- Python truthiness of a `PyVal` (`if v:`). -/
def pyTruthy : PyVal → Bool
  | .vstr s => s != ""
  | .vint n => n != 0
  | .vbool b => b
  | .vnone => false
  | .vlist xs => !xs.isEmpty
  | .vdict kvs => !kvs.isEmpty

/-- Python `x or y`: `x` if truthy, else `y`. -/
def pyOr (v d : PyVal) : PyVal := if pyTruthy v then v else d

/-- Python `x or y` on strings (used for the warranty fields, which are
always strings in the source). -/
def strOr (s d : String) : String := if s != "" then s else d

/-- Dictionary lookup `d[k]` / `d.get(k)` restricted to dict values;
`none` when the key is absent or the value is not a dict. -/
def pyGet (v : PyVal) (k : String) : Option PyVal :=
  match v with
  | .vdict kvs => kvs.lookup k
  | _ => none

/-- Python `v.get(k, dflt)` where the source guarantees `v` is a dict
(`find_product_objs_from_ldjson` only collects dicts); on a non-dict the
default is returned (that case is unreachable in the modelled paths). -/
def pyGetD (v : PyVal) (k : String) (dflt : PyVal) : PyVal :=
  ((pyGet v k).getD dflt)

/-- Python `v.get(k, dflt)` where `v` may not be a dict: a non-dict raises
`AttributeError`, modelled as `.error`. -/
def dictGetD (v : PyVal) (k : String) (dflt : PyVal) : Except Unit PyVal :=
  match v with
  | .vdict kvs => .ok ((kvs.lookup k).getD dflt)
  | _ => .error ()

/-- Python `iter(v)` as used by `for g in obj.get("@graph", [])`:
lists iterate their elements, strings their characters, dicts their keys;
anything else raises `TypeError`. -/
def pyIter : PyVal → Except Unit (List PyVal)
  | .vlist xs => .ok xs
  | .vstr s => .ok (s.data.map fun c => .vstr (String.mk [c]))
  | .vdict kvs => .ok (kvs.map fun kv => .vstr kv.1)
  | _ => .error ()

/-- Python `v[0]` as used on `data_layer[...]["products"][0]`:
defined on non-empty lists and strings, `IndexError`/`TypeError` otherwise. -/
def pyIndex0 : PyVal → Except Unit PyVal
  | .vlist (x :: _) => .ok x
  | .vstr s =>
    match s.data with
    | c :: _ => .ok (.vstr (String.mk [c]))
    | [] => .error ()
  | _ => .error ()

/-- Python `len(v)` for list/str/dict values, `TypeError` otherwise. -/
def pyLen : PyVal → Option Nat
  | .vlist xs => some xs.length
  | .vstr s => some s.data.length
  | .vdict kvs => some kvs.length
  | _ => none

/-- True exactly on string values. -/
def pyIsStr : PyVal → Bool
  | .vstr _ => true
  | _ => false

/-! ## The parsed HTML document (BeautifulSoup model)

A document is a tree of element nodes (tag name, attribute list, children)
and text nodes. `find`, `find_all`, `select`, `select_one`, `get_text` and
`find_next_sibling` are modelled below; all traversals are in document
order (a node before its descendants, descendants before later siblings),
matching BeautifulSoup. -/

inductive HNode where
  | elem (tag : String) (attrs : List (String × String)) (children : List HNode)
  | textN (s : String)

/-- Children of a node (empty for text nodes). -/
def HNode.childList : HNode → List HNode
  | .elem _ _ cs => cs
  | .textN _ => []

/-- True on element (tag) nodes; BeautifulSoup `find`/`select` only ever
return tags, never strings. -/
def HNode.isElem : HNode → Bool
  | .elem .. => true
  | .textN _ => false

mutual

/-- All raw strings of a subtree in document order (`get_text` collects
exactly these). -/
def nodeTexts : HNode → List String
  | .textN s => [s]
  | .elem _ _ cs => listNodeTexts cs

/-- `nodeTexts` over a forest. -/
def listNodeTexts : List HNode → List String
  | [] => []
  | c :: cs => nodeTexts c ++ listNodeTexts cs

end

/-- `node.get_text()` - all strings concatenated, no stripping. -/
def getTextRaw (n : HNode) : String := String.join (nodeTexts n)

/-- `node.get_text(" ", strip=True)` - each string stripped, empties
dropped, joined with a single space. -/
def getTextSpaceStrip (n : HNode) : String :=
  String.intercalate " " (((nodeTexts n).map pyStrip).filter fun s => s != "")

/-- `node.get_text(strip=True)` - each string stripped, empties dropped,
joined with the empty separator. -/
def getTextConcatStrip (n : HNode) : String :=
  String.join (((nodeTexts n).map pyStrip).filter fun s => s != "")

mutual

/-- First element of a subtree (the node itself included), in document
order, satisfying `p` (BeautifulSoup `find` with a lambda; a node is
visited before its descendants, descendants before later siblings). -/
def findElemN (p : HNode → Bool) : HNode → Option HNode
  | .textN _ => none
  | .elem t a cs =>
    if p (.elem t a cs) then some (.elem t a cs) else findElemL p cs

/-- `findElemN` over a forest. -/
def findElemL (p : HNode → Bool) : List HNode → Option HNode
  | [] => none
  | c :: rest =>
    match findElemN p c with
    | some r => some r
    | none => findElemL p rest

end

mutual

/-- Like `findElemN` restricted to proper descendants: the first match
inside the children of the node, with the siblings following the match
(needed to model `find_next_sibling`). -/
def findElemSibN (p : HNode → Bool) : HNode → Option (HNode × List HNode)
  | .textN _ => none
  | .elem _ _ cs => findElemSibL p cs

/-- First match of a forest together with its following siblings. -/
def findElemSibL (p : HNode → Bool) : List HNode → Option (HNode × List HNode)
  | [] => none
  | c :: rest =>
    match c with
    | .elem t a cs =>
      if p (.elem t a cs) then some (.elem t a cs, rest)
      else
        match findElemSibN p (.elem t a cs) with
        | some r => some r
        | none => findElemSibL p rest
    | .textN _ => findElemSibL p rest

end

mutual

/-- All elements of a subtree (the node itself included), in document
order, satisfying `p` (BeautifulSoup `find_all` / soupsieve `select`). -/
def collectElemsN (p : HNode → Bool) : HNode → List HNode
  | .textN _ => []
  | .elem t a cs =>
    (if p (.elem t a cs) then [HNode.elem t a cs] else []) ++ collectElemsL p cs

/-- `collectElemsN` over a forest. -/
def collectElemsL (p : HNode → Bool) : List HNode → List HNode
  | [] => []
  | c :: rest => collectElemsN p c ++ collectElemsL p rest

end

/-- `soup.find(...)` searches the descendants of the node. -/
def findElem (p : HNode → Bool) (n : HNode) : Option HNode :=
  findElemL p n.childList

/-- `find` variant returning the following siblings of the match. -/
def findElemSib (p : HNode → Bool) (n : HNode) : Option (HNode × List HNode) :=
  findElemSibL p n.childList

/-- `node.find_all(...)` over the descendants of the node. -/
def collectElems (p : HNode → Bool) (n : HNode) : List HNode :=
  collectElemsL p n.childList

/-- `node.find_next_sibling()` - the next sibling that is a tag. -/
def firstElemNode (l : List HNode) : Option HNode :=
  l.find? HNode.isElem

/-- Attribute lookup on an attribute list. -/
def attrVal (attrs : List (String × String)) (k : String) : Option String :=
  attrs.lookup k

/-- Whitespace-splitting of an attribute value into words (the model of
`value.split()` semantics used by CSS class matching); `acc` holds the
current word reversed. -/
def splitWs : List Char → List Char → List String
  | [], acc => if acc.isEmpty then [] else [String.mk acc.reverse]
  | ch :: r, acc =>
    if pyWsChar ch then
      if acc.isEmpty then splitWs r [] else String.mk acc.reverse :: splitWs r []
    else splitWs r (ch :: acc)

/-- CSS class test: the `class` attribute, split on whitespace,
contains `c`. -/
def hasClass (attrs : List (String × String)) (c : String) : Bool :=
  match attrs.lookup "class" with
  | some v => (splitWs v.data []).contains c
  | none => false

/-- One comma-free CSS selector as used in the source: an optional tag
name, an optional `.class`, and optional `[k]`, `[k="v"]`, `[k*="v"]`
attribute constraints. -/
structure CssSel where
  tag : Option String := none
  cls : Option String := none
  attrHas : Option String := none
  attrEq : Option (String × String) := none
  attrSub : Option (String × String) := none

/-- Does a node match one simple selector? -/
def selMatches (s : CssSel) (n : HNode) : Bool :=
  match n with
  | .elem t a _ =>
    (match s.tag with | some tg => t == tg | none => true) &&
    (match s.cls with | some c => hasClass a c | none => true) &&
    (match s.attrHas with | some k => (attrVal a k).isSome | none => true) &&
    (match s.attrEq with
     | some (k, v) => attrVal a k == some v
     | none => true) &&
    (match s.attrSub with
     | some (k, v) =>
       match attrVal a k with
       | some w => strContains w v
       | none => false
     | none => true)
  | .textN _ => false

/-- `node.select(...)` for a comma-separated list of simple selectors:
all descendant elements, in document order, matching any alternative. -/
def selectAll (sels : List CssSel) (n : HNode) : List HNode :=
  collectElems (fun c => sels.any fun s => selMatches s c) n

/-- `node.select_one(...)`: first match in document order. -/
def selectOne (sels : List CssSel) (n : HNode) : Option HNode :=
  findElem (fun c => sels.any fun s => selMatches s c) n

/-! ## Regex models

Each Python regex of the source is compiled, construct by construct, to an
executable matcher with Python semantics (`$` end-anchor, greedy/optional
pieces, `\b` word boundaries, `re.DOTALL`/`re.I` where used). Where a
quantifier interacts with backtracking, the matcher enumerates candidate
split points so that it recognises a match exactly when the engine would. -/

/-- Python `$` (no `re.M`): matches at the end of the string or just
before a final trailing newline. -/
def dollarOkAt (cs : List Char) (i : Nat) : Bool :=
  i == cs.length || (i + 1 == cs.length && cs.getD i '\x00' == '\n')

/-- All characters of `cs` in positions `[a, b)` are whitespace. -/
def allWsBetween (cs : List Char) (a b : Nat) : Bool :=
  decide (a ≤ b) && (List.range (b - a)).all fun k => pyWsChar (cs.getD (a + k) 'x')

/-- The group `($$ .*? $$)` of the source's dataLayer regex, attempted at
position `p`: two `$` anchors, a literal space, a lazy gap, a literal
space and two more `$` anchors. Returns the end position of the group. -/
def groupEndsAt (cs : List Char) (p : Nat) : Option Nat :=
  if dollarOkAt cs p && dollarOkAt cs p && decide (p < cs.length) && (cs.getD p '\x00' == ' ') then
    ((List.range (cs.length + 1)).find? fun q =>
      decide (p + 1 ≤ q) && decide (q < cs.length) && (cs.getD q '\x00' == ' ')
        && dollarOkAt cs (q + 1) && dollarOkAt cs (q + 1)).map fun q => q + 1
  else none

/-- The group followed by the literal `);` of the source pattern. -/
def dlMatchFromGroupPos (cs : List Char) (p : Nat) : Option (Nat × Nat) :=
  match groupEndsAt cs p with
  | some e => if litAt cs [')', ';'] e then some (p, e) else none
  | none => none

/-- One attempt of `dataLayer\s*=\s*($$ .*? $$);` at start position `i`
(`\s*` gaps enumerated over all split points). -/
def dlMatchAt (cs : List Char) (i : Nat) : Option (Nat × Nat) :=
  if litAt cs "dataLayer".data i then
    (List.range (cs.length + 1)).findSome? fun j =>
      if allWsBetween cs (i + 9) j && (cs.getD j '\x00' == '=') then
        (List.range (cs.length + 1)).findSome? fun p =>
          if allWsBetween cs (j + 1) p then dlMatchFromGroupPos cs p else none
      else none
  else none

/-- `re.search` of the source's dataLayer pattern: leftmost attempt that
succeeds, returning the group-1 span. -/
def dlSearch (cs : List Char) : Option (Nat × Nat) :=
  (List.range (cs.length + 1)).findSome? fun i => dlMatchAt cs i

/-- `match.group(1)` of the dataLayer regex as a string. -/
def dlRegexGroup (t : String) : Option String :=
  (dlSearch t.data).map fun pe => String.mk ((t.data.drop pe.1).take (pe.2 - pe.1))

/-- One attempt of `\b\d+\s*of\s*(\d+)\b` at position `i`, returning the
numeric value of group 1. The `\d+` runs are maximal; backtracking them
cannot help because the following token is never a digit. -/
def pageOfMatchAt (cs : List Char) (i : Nat) : Option Nat :=
  if (i == 0 || !isWordChar (cs.getD (i - 1) ' ')) && 0 < digitsCount (cs.drop i) then
    let j := i + digitsCount (cs.drop i)
    let j2 := j + wsCount (cs.drop j)
    if litAt cs "of".data j2 then
      let k := j2 + 2 + wsCount (cs.drop (j2 + 2))
      let d2 := digitsCount (cs.drop k)
      if 0 < d2 && !isWordChar (cs.getD (k + d2) ' ') then
        some (natOfDigits ((cs.drop k).take d2))
      else none
    else none
  else none

/-- `re.search(r'\b\d+\s*of\s*(\d+)\b', s)`, returning `int(group(1))`. -/
def pageOfPattern (s : String) : Option Nat :=
  (List.range (s.data.length + 1)).findSome? fun i => pageOfMatchAt s.data i

/-- Alternation `(yr|year|month)` of the title pattern at position `j`
(order is irrelevant for a boolean match test). -/
def titleUnitAt (cs : List Char) (j : Nat) : Bool :=
  litAt cs "yr".data j || litAt cs "year".data j || litAt cs "month".data j

/-- One attempt of `\b\d+\s?(yr|year|month)` at position `i`. -/
def durMatchAt (cs : List Char) (i : Nat) : Bool :=
  (i == 0 || !isWordChar (cs.getD (i - 1) ' ')) &&
  (decide (0 < digitsCount (cs.drop i)) &&
    (titleUnitAt cs (i + digitsCount (cs.drop i)) ||
     (pyWsChar (cs.getD (i + digitsCount (cs.drop i)) 'x') &&
      titleUnitAt cs (i + digitsCount (cs.drop i) + 1))))

/-- `re.search(r"(warranty|\b\d+\s?(yr|year|month))", s, re.I)` as a
boolean test (the match object is only truth-tested in the source). -/
def titleWarrantyRe (s : String) : Bool :=
  let ls := pyLower s
  strContains ls "warranty" ||
    (List.range (ls.data.length + 1)).any fun i => durMatchAt ls.data i

/-- Alternation `(year|month|yr|mo)` of the description pattern, first
alternative wins (Python tries them left to right). -/
def unitLen (cs : List Char) (j : Nat) : Option Nat :=
  if litAt cs "year".data j then some 4
  else if litAt cs "month".data j then some 5
  else if litAt cs "yr".data j then some 2
  else if litAt cs "mo".data j then some 2
  else none

/-- One attempt of `warranty\s*[:\-]?\s*(\d+\s*(year|month|yr|mo)s?\s*(?:warranty)?)`
at position `i` (applied to text already lowercased by the source),
returning the end of `group(0)`. All quantifiers here are deterministic:
each greedy run is followed by a token it cannot consume. -/
def descWarrantyAt (cs : List Char) (i : Nat) : Option Nat :=
  if litAt cs "warranty".data i then
    let j := i + 8 + wsCount (cs.drop (i + 8))
    let j2 := if cs.getD j '\x00' == ':' || cs.getD j '\x00' == '-' then j + 1 else j
    let j3 := j2 + wsCount (cs.drop j2)
    let d := digitsCount (cs.drop j3)
    if 0 < d then
      let k2 := j3 + d + wsCount (cs.drop (j3 + d))
      match unitLen cs k2 with
      | some ul =>
        let k3 := k2 + ul
        let k4 := if cs.getD k3 '\x00' == 's' then k3 + 1 else k3
        let k5 := k4 + wsCount (cs.drop k4)
        some (if litAt cs "warranty".data k5 then k5 + 8 else k5)
      | none => none
    else none
  else none

/-- `re.search` of the description warranty pattern, returning `group(0)`. -/
def descWarrantySearch (s : String) : Option String :=
  (List.range (s.data.length + 1)).findSome? fun i =>
    (descWarrantyAt s.data i).map fun e => String.mk ((s.data.drop i).take (e - i))

/-! ## Parsing helpers of the source (`streamlit_app.py` lines 47-115, 202-216) -/

/-- Tag-name test. -/
def isTag (t : String) (n : HNode) : Bool :=
  match n with
  | .elem tg _ _ => tg == t
  | .textN _ => false

/-- The sentinel value. -/
def notIndicated : PyVal := .vstr "Not indicated"

/-- Texts of all `<script>` tags (`script.string or script.get_text()`
coincides with the raw concatenated text in every case arising here). -/
def scriptTexts (soup : HNode) : List String :=
  (collectElems (isTag "script") soup).map getTextRaw

/-- Texts of `<script type="application/ld+json">` tags. -/
def ldScriptTexts (soup : HNode) : List String :=
  (collectElems (fun n =>
    match n with
    | .elem t a _ => t == "script" && attrVal a "type" == some "application/ld+json"
    | .textN _ => false) soup).map getTextRaw

/-- Loop body of `all_ldjson_objects`: each block is parsed independently,
a malformed block is skipped, a top-level array is flattened. -/
def ldjGo (loads : String → Except Unit PyVal) : List String → List PyVal
  | [] => []
  | t :: rest =>
    (if t != "" then
      match loads t with
      | .ok (.vlist xs) => xs
      | .ok v => [v]
      | .error _ => []
    else []) ++ ldjGo loads rest

/-- `all_ldjson_objects(soup)` (source lines 47-58). -/
def all_ldjson_objects (loads : String → Except Unit PyVal) (soup : HNode) : List PyVal :=
  ldjGo loads (ldScriptTexts soup)

/-- `isinstance(g, dict) and g.get("@type") == "Product"`. -/
def isProductDict (g : PyVal) : Bool :=
  match g with
  | .vdict kvs => decide (kvs.lookup "@type" = some (PyVal.vstr "Product"))
  | _ => false

/-- The `@graph` part of the loop body of `find_product_objs_from_ldjson`
(source lines 63-66): when the key is present its value is iterated and
the product dicts collected; iterating a non-iterable value raises. -/
def graphProducts (obj : PyVal) : Except Unit (List PyVal) :=
  match obj with
  | .vdict kvs =>
    if (kvs.lookup "@graph").isSome then do
      let gs ← pyIter ((kvs.lookup "@graph").getD .vnone)
      pure (gs.filter isProductDict)
    else pure ([] : List PyVal)
  | _ => pure ([] : List PyVal)

/-- The direct-record part of the loop body (source lines 67-68). -/
def directProduct (obj : PyVal) : List PyVal :=
  match obj with
  | .vdict kvs => if kvs.lookup "@type" = some (PyVal.vstr "Product") then [obj] else []
  | _ => []

/-- Loop body of `find_product_objs_from_ldjson`: `@graph` members first,
then the object itself. -/
def fpoGo : List PyVal → Except Unit (List PyVal)
  | [] => .ok []
  | obj :: rest => do
    let fg ← graphProducts obj
    let more ← fpoGo rest
    pure (fg ++ directProduct obj ++ more)

/-- `find_product_objs_from_ldjson(soup)` (source lines 60-69). -/
def find_product_objs_from_ldjson (loads : String → Except Unit PyVal) (soup : HNode) :
    Except Unit (List PyVal) :=
  fpoGo (all_ldjson_objects loads soup)

/-- Loop body of `parse_data_layer`: the regex is searched in each script
containing the substring "dataLayer"; on a match the group is parsed and
`data[0]` returned when the parse yields a non-empty list; any other
outcome (parse failure included, via the `except: continue`) moves on. -/
def pdlGo (loads : String → Except Unit PyVal) : List String → PyVal
  | [] => .vdict []
  | t :: rest =>
    if strContains t "dataLayer" then
      match dlRegexGroup t with
      | some g =>
        match loads g with
        | .ok (.vlist (x :: _)) => x
        | _ => pdlGo loads rest
      | none => pdlGo loads rest
    else pdlGo loads rest

/-- `parse_data_layer(soup)` (source lines 71-84). -/
def parse_data_layer (loads : String → Except Unit PyVal) (soup : HNode) : PyVal :=
  pdlGo loads (scriptTexts soup)

/-- `text_or_na(node)` (source lines 202-206); the default parameter
`"Not indicated"` is inlined, the source never passes another value. -/
def text_or_na (node : Option HNode) : String :=
  match node with
  | none => "Not indicated"
  | some n =>
    let t := getTextSpaceStrip n
    if t != "" then t else "Not indicated"

/-- Character filter of `re.sub(r'[^\d,.]', '', s)` followed by
`.replace(',', '')` (removing every comma is exactly that replace). -/
def cleanPriceStr (s : String) : String :=
  let step1 := String.mk (s.data.filter fun c => c.isDigit || c == ',' || c == '.')
  String.mk (step1.data.filter fun c => !(c == ','))

/-- `clean_price(price_str)` (source lines 211-216). The argument can be
any structured-data value; `re.sub` on a non-string raises `TypeError`. -/
def clean_price (price : PyVal) : Except Unit PyVal :=
  if !pyTruthy price || price = notIndicated then .ok notIndicated
  else
    match price with
    | .vstr s => .ok (.vstr (cleanPriceStr s))
    | _ => .error ()

/-! ## Core extraction (`streamlit_app.py` lines 218-312) -/

/-- `soup.find("main", {"role": "main"}) or soup`. -/
def mainContent (soup : HNode) : HNode :=
  (findElem (fun n =>
    match n with
    | .elem t a _ => t == "main" && attrVal a "role" == some "main"
    | .textN _ => false) soup).getD soup

/-- Selector `h1`. -/
def h1Sels : List CssSel := [{ tag := some "h1" }]

/-- Selector `span.-b, span.price, div.price, span[data-price], div.-prc`. -/
def priceSels : List CssSel :=
  [{ tag := some "span", cls := some "-b" },
   { tag := some "span", cls := some "price" },
   { tag := some "div", cls := some "price" },
   { tag := some "span", attrHas := some "data-price" },
   { tag := some "div", cls := some "-prc" }]

/-- Selector `div.seller-info, div.-seller, p.seller-name, a.seller-link,
div.seller-details, span.seller`. -/
def sellerSels : List CssSel :=
  [{ tag := some "div", cls := some "seller-info" },
   { tag := some "div", cls := some "-seller" },
   { tag := some "p", cls := some "seller-name" },
   { tag := some "a", cls := some "seller-link" },
   { tag := some "div", cls := some "seller-details" },
   { tag := some "span", cls := some "seller" }]

/-- Selector `p, div, span`. -/
def pdsSels : List CssSel :=
  [{ tag := some "p" }, { tag := some "div" }, { tag := some "span" }]

/-- Selector `img[alt*="Jumia Express"]`. -/
def imgJumiaSels : List CssSel :=
  [{ tag := some "img", attrSub := some ("alt", "Jumia Express") }]

/-- Selector `div.markup, div.-product-desc, div.description`. -/
def descSels : List CssSel :=
  [{ tag := some "div", cls := some "markup" },
   { tag := some "div", cls := some "-product-desc" },
   { tag := some "div", cls := some "description" }]

/-- Selector `nav.pagination, div.pagination, ul.pagination`. -/
def pagSels : List CssSel :=
  [{ tag := some "nav", cls := some "pagination" },
   { tag := some "div", cls := some "pagination" },
   { tag := some "ul", cls := some "pagination" }]

/-- The dataLayer stage of `extract_basic_fields` (source lines 222-229):
consults `data_layer["ecommerce"]["detail"]["products"]` when truthy. -/
def dlStage (dl : PyVal) (name sku price seller : PyVal) :
    Except Unit (PyVal × PyVal × PyVal × PyVal) := do
  let ecom ← dictGetD dl "ecommerce" (.vdict [])
  let detail ← dictGetD ecom "detail" (.vdict [])
  let prods ← dictGetD detail "products" .vnone
  if pyTruthy prods then do
    let product ← pyIndex0 prods
    let name2 ← dictGetD product "name" name
    let sku2 ← dictGetD product "id" sku
    let price2 ← dictGetD product "price" price
    let seller2 ← dictGetD dl "dimension23" seller
    pure (name2, sku2, price2, seller2)
  else pure (name, sku, price, seller)

/-- The ld+json stage of `extract_basic_fields` (source lines 231-240):
keys of the first recovered product record override the current values
when present; `p.get(...)` always receives a dict here (the reader only
collects dicts), so the total `pyGetD` is faithful. -/
def ldStage (products : List PyVal) (name sku price seller : PyVal) :
    PyVal × PyVal × PyVal × PyVal :=
  match products with
  | [] => (name, sku, price, seller)
  | p :: _ =>
    let name2 := pyGetD p "name" name
    let sku2 := pyGetD p "sku" sku
    let prSe :=
      match pyGet p "offers" with
      | some (.vdict o) =>
        let pr := (o.lookup "price").getD price
        let se :=
          match o.lookup "seller" with
          | some (.vdict sl) => (sl.lookup "name").getD seller
          | _ => seller
        (pr, se)
      | _ => (price, seller)
    (name2, sku2, prSe.1, prSe.2)

/-- The HTML-fallback stage of `extract_basic_fields` (source lines
242-260): each fallback fires only when its field still compares equal to
the string "Not indicated". -/
def fallbackStage (main : HNode) (name price seller : PyVal) :
    PyVal × PyVal × PyVal :=
  let name2 := if name = notIndicated then PyVal.vstr (text_or_na (selectOne h1Sels main)) else name
  let price2 := if price = notIndicated then PyVal.vstr (text_or_na (selectOne priceSels main)) else price
  let seller2 :=
    if seller = notIndicated then
      match selectOne sellerSels main with
      | some node =>
        let sellerText := text_or_na (some node)
        if !strContains (pyLower sellerText) "follow" then PyVal.vstr sellerText else seller
      | none =>
        match (selectAll pdsSels main).find? (fun node =>
          let t := pyLower (getTextConcatStrip node)
          strContains t "seller" &&
            !(strContains t "follow" || strContains t "rating" || strContains t "score")) with
        | some node => PyVal.vstr (text_or_na (some node))
        | none => seller
    else seller
  let seller3 :=
    if seller2 = notIndicated ∧ (selectOne imgJumiaSels main).isSome then PyVal.vstr "Jumia"
    else seller2
  (name2, price2, seller3)

/-- `extract_basic_fields(soup)` (source lines 218-262); the result order
`(name, clean_price(price), sku, seller)` follows the source's return. -/
def extract_basic_fields (loads : String → Except Unit PyVal) (soup : HNode) :
    Except Unit (PyVal × PyVal × PyVal × PyVal) := do
  let main := mainContent soup
  let dl := parse_data_layer loads soup
  let r1 ← dlStage dl notIndicated notIndicated notIndicated notIndicated
  let products ← find_product_objs_from_ldjson loads soup
  let r2 := ldStage products r1.1 r1.2.1 r1.2.2.1 r1.2.2.2
  let r3 := fallbackStage main r2.1 r2.2.2.1 r2.2.2.2
  let pc ← clean_price r3.2.1
  pure (r3.1, pc, r2.2.1, r3.2.2)

/-- Predicate of the warranty-heading search (source line 271): a `p`,
`div` or `span` whose stripped text contains "warranty". -/
def warrantyHeadingPred (n : HNode) : Bool :=
  match n with
  | .elem t _ _ =>
    (t == "p" || t == "div" || t == "span") &&
      strContains (pyLower (getTextConcatStrip n)) "warranty"
  | .textN _ => false

/-- Predicate of the warranty-address search (source line 290): a `p`,
`div` or `span` whose stripped text contains "warranty address". -/
def warrantyAddressPred (n : HNode) : Bool :=
  match n with
  | .elem t _ _ =>
    (t == "p" || t == "div" || t == "span") &&
      strContains (pyLower (getTextConcatStrip n)) "warranty address"
  | .textN _ => false

mutual

/-- Rows of `div.-pdp-add-info tr, table.specifications tr, div.-spec`
(source line 276), collected in document order; the boolean flags carry
whether an ancestor matched `div.-pdp-add-info` / `table.specifications`. -/
def specRowsGo (inPdp inTbl : Bool) : HNode → List HNode
  | .textN _ => []
  | .elem t a cs =>
    (if (t == "div" && hasClass a "-spec") || (t == "tr" && (inPdp || inTbl))
     then [HNode.elem t a cs] else []) ++
      specRowsList (inPdp || (t == "div" && hasClass a "-pdp-add-info"))
        (inTbl || (t == "table" && hasClass a "specifications")) cs

/-- `specRowsGo` over a forest. -/
def specRowsList (inPdp inTbl : Bool) : List HNode → List HNode
  | [] => []
  | c :: rest => specRowsGo inPdp inTbl c ++ specRowsList inPdp inTbl rest

end

/-- All spec rows under `main` (the scope element itself may serve as the
ancestor part of the descendant selectors). -/
def specRows (main : HNode) : List HNode :=
  match main with
  | .elem t a cs =>
    specRowsList (t == "div" && hasClass a "-pdp-add-info")
      (t == "table" && hasClass a "specifications") cs
  | .textN _ => []

/-- The `tr` scan of `extract_warranty_fields` (source lines 276-280):
first row with exactly two `td` cells whose first cell's text contains
"warranty"; yields the two cells. -/
def firstWarrantyRowCells (main : HNode) : Option (HNode × HNode) :=
  (specRows main).findSome? fun tr =>
    match collectElems (isTag "td") tr with
    | [c1, c2] =>
      if strContains (pyLower (getTextConcatStrip c1)) "warranty" then some (c1, c2) else none
    | _ => none

/-- The description scan of `extract_warranty_fields` (source lines
282-288). -/
def descWarrantySpecs (main : HNode) : Option String :=
  match selectOne descSels main with
  | some desc => descWarrantySearch (pyLower (getTextConcatStrip desc))
  | none => none

/-- `extract_warranty_fields(soup, title_text)` (source lines 264-294).
The title comes in as the raw extracted value; `re.search` on a truthy
non-string raises `TypeError` (`title_text or ""`). -/
def extract_warranty_fields (soup : HNode) (titleText : PyVal) :
    Except Unit (String × String × String) :=
  let main := mainContent soup
  match (if pyTruthy titleText then titleText else .vstr "") with
  | .vstr ts =>
    let warrantyTitle := if titleWarrantyRe ts then ts else "Not indicated"
    let specs1 : String :=
      match findElemSib warrantyHeadingPred main with
      | some (_, sibs) =>
        match firstElemNode sibs with
        | some d => text_or_na (some d)
        | none => "Not indicated"
      | none => "Not indicated"
    let specs2 :=
      if specs1 = "Not indicated" then
        match firstWarrantyRowCells main with
        | some (_, c2) => getTextConcatStrip c2
        | none => "Not indicated"
      else specs1
    let specs3 :=
      if specs2 = "Not indicated" then
        match descWarrantySpecs main with
        | some m => m
        | none => "Not indicated"
      else specs2
    let addr : String :=
      match findElemSib warrantyAddressPred main with
      | some (node, sibs) => text_or_na (some ((firstElemNode sibs).getD node))
      | none => "Not indicated"
    .ok (warrantyTitle, specs3, addr)
  | _ => .error ()

/-- The flat record assembled by `parse_product` (source lines 303-312). -/
structure ProductRecord where
  productTitle : PyVal
  sku : PyVal
  seller : PyVal
  price : PyVal
  warrantyTitle : String
  warrantySpecs : String
  warrantyAddress : String
  productUrl : String
deriving DecidableEq

/-- The all-error record emitted on a fetch failure (source line 299). -/
def errorRecord (url : String) : ProductRecord :=
  { productTitle := .vstr "Error fetching page", sku := .vstr "Error fetching page",
    seller := .vstr "Error fetching page", price := .vstr "Error fetching page",
    warrantyTitle := "Error fetching page", warrantySpecs := "Error fetching page",
    warrantyAddress := "Error fetching page", productUrl := url }

/-- `parse_product(url)` (source lines 296-312); `fetch` abstracts
`fetch_page` composed with `BeautifulSoup` (`none` = failed fetch, the
source's `fetch_page` catches every exception internally). -/
def parse_product (loads : String → Except Unit PyVal) (fetch : String → Option HNode)
    (url : String) : Except Unit ProductRecord :=
  match fetch url with
  | none => .ok (errorRecord url)
  | some soup => do
    let r ← extract_basic_fields loads soup
    let w ← extract_warranty_fields soup r.1
    pure { productTitle := pyOr r.1 notIndicated, sku := pyOr r.2.2.1 notIndicated,
           seller := pyOr r.2.2.2 notIndicated, price := pyOr r.2.1 notIndicated,
           warrantyTitle := strOr w.1 "Not indicated", warrantySpecs := strOr w.2.1 "Not indicated",
           warrantyAddress := strOr w.2.2 "Not indicated", productUrl := url }

/-- The product-scraping batch (source lines 362-372): one
`parse_product` per URL; an uncaught exception in any worker surfaces at
`fut.result()` and aborts the collection loop, modelled by `mapM`.
Completion order is abstracted to submission order (the claims about the
batch are order-independent). -/
def scrapeAll (loads : String → Except Unit PyVal) (fetch : String → Option HNode)
    (urls : List String) : Except Unit (List ProductRecord) :=
  urls.mapM (parse_product loads fetch)

/-! ## The Link Collector (`streamlit_app.py` lines 18, 117-200) -/

/-- `MAX_PAGES = 50` (source line 18). -/
def MAX_PAGES : Nat := 50

/-- The dataLayer branch of `get_total_pages` (source lines 129-133);
an `AttributeError` (`.get` on a non-dict) or `TypeError` (`len` of a
non-sized value) is caught by the enclosing `except` and yields
`MAX_PAGES`. -/
def gtpDataLayerPart (loads : String → Except Unit PyVal) (soup : HNode) : Nat :=
  match parse_data_layer loads soup with
  | .vdict kvs =>
    match (kvs.lookup "ecommerce").getD (.vdict []) with
    | .vdict ekvs =>
      let imp := (ekvs.lookup "impressions").getD .vnone
      if pyTruthy imp then
        match pyLen imp with
        | some l => min (l / 40 + 1) MAX_PAGES
        | none => MAX_PAGES
      else MAX_PAGES
    | _ => MAX_PAGES
  | _ => MAX_PAGES

/-- The "N of M" branch of `get_total_pages` (source lines 124-128)
followed by the dataLayer branch and the default. -/
def restOfGtp (loads : String → Except Unit PyVal) (soup : HNode) : Nat :=
  match findElem (fun n => (pageOfPattern (getTextRaw n)).isSome) soup with
  | some node =>
    match pageOfPattern (getTextRaw node) with
    | some m => min m MAX_PAGES
    | none => gtpDataLayerPart loads soup
  | none => gtpDataLayerPart loads soup

/-- `get_total_pages(soup)` (source lines 117-136). A pagination block
with fewer than two anchors makes `find_all("a")[-2]` raise `IndexError`,
caught by the `except` which returns `MAX_PAGES`. -/
def get_total_pages (loads : String → Except Unit PyVal) (soup : HNode) : Nat :=
  match selectOne pagSels soup with
  | some pg =>
    let anchors := collectElems (isTag "a") pg
    if h2 : 2 ≤ anchors.length then
      let lastPage := getTextConcatStrip (anchors.get ⟨anchors.length - 2, by omega⟩)
      if pyIsDigit lastPage then min (toNatD lastPage) MAX_PAGES
      else restOfGtp loads soup
    else MAX_PAGES
  | none => restOfGtp loads soup

/-- The pagination loop of `get_product_links` (source lines 166-199).
`fetchLinks p` abstracts fetching page `p` (both pagination URL formats)
and running `parse_links_from_grid` on the result: `none` means both
formats failed to fetch, `some l` gives the links parsed from the first
format that fetched. Returns the accumulated link set and the list of
page numbers the loop fetched, in order. -/
def collectAux (fetchLinks : Nat → Option (List String)) (maxPages page : Nat)
    (acc : Finset String) : Finset String × List Nat :=
  if _h : page ≤ maxPages then
    match fetchLinks page with
    | none => (acc, [page])
    | some found =>
      if found.isEmpty then (acc, [page])
      else
        let newLinks := found.toFinset \ acc
        if newLinks = ∅ ∧ 1 < page then (acc, [page])
        else
          let r := collectAux fetchLinks maxPages (page + 1) (acc ∪ newLinks)
          (r.1, page :: r.2)
  else (acc, [])
termination_by maxPages + 1 - page
decreasing_by omega

/-- `get_product_links(category_url, ...)` (source lines 138-200).
`fetchCat` abstracts fetching and parsing the category page itself
(`none` makes the source return `[]`); `subLinks` abstracts the links
accumulated by the depth-bounded subcategory recursion (source lines
153-161), which enter `all_links` before the pagination loop starts. -/
def get_product_links (loads : String → Except Unit PyVal) (fetchCat : Option HNode)
    (subLinks : Finset String) (fetchLinks : Nat → Option (List String)) :
    Finset String × List Nat :=
  match fetchCat with
  | none => (∅, [])
  | some soup => collectAux fetchLinks (get_total_pages loads soup) 1 subLinks

/-! ## Decidability of result equality, and predicates used to state claims -/

instance {e a : Type} [DecidableEq e] [DecidableEq a] : DecidableEq (Except e a) := fun x y =>
  match x, y with
  | .ok u, .ok v =>
    if h : u = v then isTrue (by rw [h]) else isFalse fun hh => h (Except.ok.inj hh)
  | .error u, .error v =>
    if h : u = v then isTrue (by rw [h]) else isFalse fun hh => h (Except.error.inj hh)
  | .ok _, .error _ => isFalse Except.noConfusion
  | .error _, .ok _ => isFalse Except.noConfusion

/-- An optional structured value that is absent or a string. -/
def valueIsStrOrAbsent : Option PyVal → Bool
  | none => true
  | some (.vstr _) => true
  | some _ => false

/-- The structured-record keys that `extract_basic_fields` consults on the
first recovered product record are absent or string-valued. -/
def productConsultedStrings (p : PyVal) : Bool :=
  valueIsStrOrAbsent (pyGet p "name") && valueIsStrOrAbsent (pyGet p "sku") &&
  (match pyGet p "offers" with
   | some (.vdict o) =>
     valueIsStrOrAbsent (o.lookup "price") &&
       (match o.lookup "seller" with
        | some (.vdict sl) => valueIsStrOrAbsent (sl.lookup "name")
        | _ => true)
   | _ => true)

/-- `productConsultedStrings` holds of the head of the recovered product
list (vacuously when the list is empty or the reader raised). -/
def consultedOk : Except Unit (List PyVal) → Bool
  | .ok (p :: _) => productConsultedStrings p
  | _ => true

/-! ## Concrete documents and inputs used by counterexamples and witnesses -/

/-- A `loads` oracle with no parseable scripts. -/
def loadsNone : String → Except Unit PyVal := fun _ => .error ()

/-- A minimal benign page. -/
def docMin : HNode := .elem "html" [] []

/-- ld+json oracle for the numeric-sku page: `{"@type": "Product",
"name": "Phone", "sku": 123}`. -/
def loadsSku : String → Except Unit PyVal := fun t =>
  if t = "J" then
    .ok (.vdict [("@type", .vstr "Product"), ("name", .vstr "Phone"), ("sku", .vint 123)])
  else .error ()

/-- Page embedding the numeric-sku product record. -/
def docSku : HNode :=
  .elem "html" [] [.elem "script" [("type", "application/ld+json")] [.textN "J"]]

/-- Fetcher that always returns the numeric-sku page. -/
def fetchSku : String → Option HNode := fun _ => some docSku

/-- The record `parse_product` produces for the numeric-sku page: the sku
field carries the integer through unchanged. -/
def c1SkuRecord : ProductRecord :=
  { productTitle := .vstr "Phone", sku := .vint 123, seller := notIndicated,
    price := notIndicated, warrantyTitle := "Not indicated",
    warrantySpecs := "Not indicated", warrantyAddress := "Not indicated",
    productUrl := "u" }

/-- ld+json oracle for a fully string-valued product record. -/
def loadsC4w : String → Except Unit PyVal := fun t =>
  if t = "W4" then
    .ok (.vdict [("@type", .vstr "Product"), ("name", .vstr "Alpha"), ("sku", .vstr "S1"),
      ("offers", .vdict [("price", .vstr "10"), ("seller", .vdict [("name", .vstr "Ben")])])])
  else .error ()

/-- Page with the string-valued record plus a conflicting `h1` heading. -/
def docC4w : HNode :=
  .elem "html" [] [
    .elem "script" [("type", "application/ld+json")] [.textN "W4"],
    .elem "main" [("role", "main")] [.elem "h1" [] [.textN "Other"]]]

/-- Fetcher returning the string-valued-record page. -/
def fetchC4w : String → Option HNode := fun _ => some docC4w

/-- The basic-fields tuple extracted from `docC4w`. -/
def c4wTuple : PyVal × PyVal × PyVal × PyVal :=
  (.vstr "Alpha", .vstr "10", .vstr "S1", .vstr "Ben")

/-- The record `parse_product` produces for `docC4w`. -/
def c1wRec : ProductRecord :=
  { productTitle := .vstr "Alpha", sku := .vstr "S1", seller := .vstr "Ben",
    price := .vstr "10", warrantyTitle := "Not indicated",
    warrantySpecs := "Not indicated", warrantyAddress := "Not indicated",
    productUrl := "w" }

/-- First cell of the warranty-address table row. -/
def c2Cell1 : HNode := .elem "td" [] [.textN "Warranty Address"]

/-- Second cell of the warranty-address table row. -/
def c2Cell2 : HNode := .elem "td" [] [.textN "123 Main St"]

/-- Page whose only warranty information is a specification-table row
labelled "Warranty Address". -/
def docC2 : HNode :=
  .elem "html" [] [
    .elem "main" [("role", "main")] [
      .elem "table" [("class", "specifications")] [
        .elem "tr" [] [c2Cell1, c2Cell2]]]]

/-- The price element of the raw-price page. -/
def c3PriceNode : HNode := .elem "span" [("class", "price")] [.textN "KSh 1,299"]

/-- Page whose price appears only as rendered text "KSh 1,299". -/
def docC3 : HNode :=
  .elem "html" [] [.elem "main" [("role", "main")] [c3PriceNode]]

/-- ld+json oracle for a product record with an empty name. -/
def loadsEmptyName : String → Except Unit PyVal := fun t =>
  if t = "E" then .ok (.vdict [("@type", .vstr "Product"), ("name", .vstr "")])
  else .error ()

/-- Page with an empty structured name and a non-empty `h1` heading. -/
def docEmptyName : HNode :=
  .elem "html" [] [
    .elem "script" [("type", "application/ld+json")] [.textN "E"],
    .elem "main" [("role", "main")] [.elem "h1" [] [.textN "Widget"]]]

/-- ld+json oracle whose seller name is "Follow". -/
def loadsFollow : String → Except Unit PyVal := fun t =>
  if t = "F" then
    .ok (.vdict [("@type", .vstr "Product"),
      ("offers", .vdict [("seller", .vdict [("name", .vstr "Follow")])])])
  else .error ()

/-- Page whose structured seller is "Follow". -/
def docFollow : HNode :=
  .elem "html" [] [.elem "script" [("type", "application/ld+json")] [.textN "F"]]

/-- Page whose seller selector node's text is "Follow". -/
def docSellerFollow : HNode :=
  .elem "html" [] [
    .elem "main" [("role", "main")] [
      .elem "div" [("class", "seller-info")] [.textN "Follow"]]]

/-- The seller selector node of `docSellerFollow`. -/
def c5SellerNode : HNode := .elem "div" [("class", "seller-info")] [.textN "Follow"]

/-- ld+json oracle for a document whose product is attached as the
`mainEntity` of a containing record - the spec's nesting shape (c). -/
def loadsMainEntity : String → Except Unit PyVal := fun t =>
  if t = "ME" then
    .ok (.vdict [("@type", .vstr "WebPage"),
      ("mainEntity", .vdict [("@type", .vstr "Product"), ("name", .vstr "X")])])
  else .error ()

/-- The product record nested as a main entity. -/
def c6MainEntityProduct : PyVal :=
  .vdict [("@type", .vstr "Product"), ("name", .vstr "X")]

/-- The containing ld+json object of shape (c). -/
def c6MainEntityObj : PyVal :=
  .vdict [("@type", .vstr "WebPage"), ("mainEntity", c6MainEntityProduct)]

/-- Page embedding the main-entity record. -/
def docMainEntity : HNode :=
  .elem "html" [] [.elem "script" [("type", "application/ld+json")] [.textN "ME"]]

/-- The product record nested inside an `@graph` container. -/
def c6GraphProduct : PyVal :=
  .vdict [("@type", .vstr "Product"), ("name", .vstr "G1")]

/-- ld+json oracle for the `@graph` nesting shape (b). -/
def loadsGraph : String → Except Unit PyVal := fun t =>
  if t = "G" then .ok (.vdict [("@graph", .vlist [c6GraphProduct])])
  else .error ()

/-- Page embedding the `@graph` record. -/
def docGraph : HNode :=
  .elem "html" [] [.elem "script" [("type", "application/ld+json")] [.textN "G"]]

/-- Batch of three URLs for the fault-isolation scenario. -/
def c7urls : List String := ["a", "b", "c"]

/-- Fetcher failing exactly on URL "b". -/
def fetchC7 : String → Option HNode := fun u => if u = "b" then none else some docMin

/-- Paginated source for the dedup/termination scenario: page 3 repeats
the union of pages 1-2. -/
def linksC8 : Nat → Option (List String) := fun p =>
  if p = 1 then some ["a", "b"]
  else if p = 2 then some ["c"]
  else if p = 3 then some ["a", "b", "c"]
  else some ["z"]

/-! ## Helper lemmas -/

/-- The heart of the dataLayer regex failure: a position where `$` matches
can never be followed by a literal space. -/
theorem ddspace_false (cs : List Char) (p : Nat) :
    (dollarOkAt cs p && dollarOkAt cs p && decide (p < cs.length) &&
      (cs.getD p '\x00' == ' ')) = false := by
  cases hd : dollarOkAt cs p with
  | false => simp [hd]
  | true =>
    unfold dollarOkAt at hd
    simp only [Bool.or_eq_true, beq_iff_eq, Bool.and_eq_true] at hd
    rcases hd with h | ⟨_h, hnl⟩
    · simp [h]
    · have hg : cs[p]?.getD '\x00' = '\n' := by
        rw [← List.getD_eq_getElem?_getD]
        exact hnl
      simp [hg, List.getD_eq_getElem?_getD]

/-- The group of the dataLayer regex matches nowhere. -/
theorem groupEndsAt_none (cs : List Char) (p : Nat) : groupEndsAt cs p = none := by
  unfold groupEndsAt
  rw [ddspace_false]
  rfl

/-- The group-plus-tail of the dataLayer regex matches nowhere. -/
theorem dlMatchFromGroupPos_none (cs : List Char) (p : Nat) :
    dlMatchFromGroupPos cs p = none := by
  unfold dlMatchFromGroupPos
  rw [groupEndsAt_none]

/-- `re.search` of the dataLayer pattern fails on every string. -/
theorem dlSearch_none (cs : List Char) : dlSearch cs = none := by
  unfold dlSearch dlMatchAt
  rw [List.findSome?_eq_none_iff]
  intro i _
  split
  · rw [List.findSome?_eq_none_iff]
    intro j _
    split
    · rw [List.findSome?_eq_none_iff]
      intro p _
      split
      · exact dlMatchFromGroupPos_none cs p
      · rfl
    · rfl
  · rfl

/-- The loop of `parse_data_layer` always falls through to `return {}`. -/
theorem pdlGo_empty (loads : String → Except Unit PyVal) :
    ∀ ts, pdlGo loads ts = PyVal.vdict []
  | [] => rfl
  | t :: rest => by
    unfold pdlGo
    have hg : dlRegexGroup t = none := by simp [dlRegexGroup, dlSearch_none]
    rw [hg]
    split
    · exact pdlGo_empty loads rest
    · exact pdlGo_empty loads rest

/-- `parse_data_layer` returns the empty dict on every document. -/
theorem parse_data_layer_empty (loads : String → Except Unit PyVal) (soup : HNode) :
    parse_data_layer loads soup = PyVal.vdict [] :=
  pdlGo_empty loads (scriptTexts soup)

/-- The dataLayer stage of `extract_basic_fields` passes the four field
values through unchanged when the dataLayer dict is empty. -/
theorem dlStage_empty (a b c d : PyVal) :
    dlStage (PyVal.vdict []) a b c d = Except.ok (a, b, c, d) := rfl

/-! ## Claim C10 -/

/-- C10: for every input document, `parse_data_layer` returns the empty
mapping - its extraction regex `dataLayer\s*=\s*($$ .*? $$);` cannot match
any script text (a `$` anchor is never followed by a matchable literal
space), so the dataLayer stage never contributes a name, sku, price or
seller value and the structured-record values in `extract_basic_fields`
come exclusively from JSON-LD. -/
theorem c10_parse_data_layer_always_empty :
    (∀ loads soup, parse_data_layer loads soup = PyVal.vdict []) ∧
    (∀ cs, dlSearch cs = none) ∧
    (∀ a b c d, dlStage (PyVal.vdict []) a b c d = Except.ok (a, b, c, d)) :=
  ⟨parse_data_layer_empty, dlSearch_none, fun a b c d => dlStage_empty a b c d⟩

/-! ## Link-collector lemmas -/

/-- A failed page fetch ends the pagination loop at that page. -/
theorem collectAux_stop_fetch (f : Nat → Option (List String)) (mp page : Nat)
    (acc : Finset String) (h : page ≤ mp) (hf : f page = none) :
    collectAux f mp page acc = (acc, [page]) := by
  rw [collectAux]
  simp [h, hf]

/-- A page with zero links ends the pagination loop at that page. -/
theorem collectAux_stop_nolinks (f : Nat → Option (List String)) (mp page : Nat)
    (acc : Finset String) (h : page ≤ mp) (hf : f page = some []) :
    collectAux f mp page acc = (acc, [page]) := by
  rw [collectAux]
  simp [h, hf]

/-- A page past page 1 yielding no links outside the accumulated set ends
the pagination loop at that page. -/
theorem collectAux_stop_nonew (f : Nat → Option (List String)) (mp page : Nat)
    (acc : Finset String) (l : List String) (h : page ≤ mp) (h1 : 1 < page)
    (hf : f page = some l) (hsub : l.toFinset ⊆ acc) :
    collectAux f mp page acc = (acc, [page]) := by
  rw [collectAux]
  rcases l with _ | ⟨x, xs⟩
  · simp [h, hf]
  · have hempty : (x :: xs).toFinset \ acc = ∅ := Finset.sdiff_eq_empty_iff_subset.mpr hsub
    simp [h, hf, hempty, h1]
    all_goals
      intro hcon
      exact absurd (by simpa using hsub) hcon

/-- Fuel-indexed bound on the pagination loop: it fetches at most
`maxPages + 1 - page` pages, all of them at most `maxPages`. -/
theorem collectAux_bound (f : Nat → Option (List String)) (mp : Nat) :
    ∀ fuel page acc, mp + 1 - page ≤ fuel →
      (collectAux f mp page acc).2.length ≤ mp + 1 - page ∧
      ((collectAux f mp page acc).2.all fun q => decide (q ≤ mp)) = true := by
  intro fuel
  induction fuel with
  | zero =>
    intro page acc h
    have hgt : ¬ page ≤ mp := by omega
    rw [collectAux]
    simp [hgt]
  | succ n ih =>
    intro page acc h
    by_cases hle : page ≤ mp
    · rw [collectAux]
      rw [dif_pos hle]
      cases hf : f page with
      | none =>
        refine ⟨by simp; omega, ?_⟩
        simp [hle]
      | some found =>
        by_cases he : found.isEmpty
        · simp only [he, if_pos]
          refine ⟨by simp; omega, by simp [hle]⟩
        · simp only [he, if_neg, Bool.false_eq_true, not_false_iff]
          by_cases hc : found.toFinset \ acc = ∅ ∧ 1 < page
          · simp only [hc, if_pos]
            refine ⟨by simp; omega, by simp [hle]⟩
          · simp only [hc, if_neg, not_false_iff]
            have hrec := ih (page + 1) (acc ∪ (found.toFinset \ acc)) (by omega)
            refine ⟨?_, ?_⟩
            · simp only [List.length_cons]
              omega
            · simp only [List.all_cons, hrec.2, Bool.and_true]
              simp [hle]
    · rw [collectAux]
      simp [hle]

/-- Every branch of the dataLayer part of `get_total_pages` is bounded by
`MAX_PAGES`. -/
theorem gtpDataLayerPart_le (loads : String → Except Unit PyVal) (soup : HNode) :
    gtpDataLayerPart loads soup ≤ MAX_PAGES := by
  unfold gtpDataLayerPart
  repeat' first
    | exact Nat.min_le_right _ _
    | exact Nat.le_refl _
    | split
    | dsimp only

/-- Every branch of the fallback part of `get_total_pages` is bounded. -/
theorem restOfGtp_le (loads : String → Except Unit PyVal) (soup : HNode) :
    restOfGtp loads soup ≤ MAX_PAGES := by
  unfold restOfGtp
  repeat' first
    | exact Nat.min_le_right _ _
    | exact gtpDataLayerPart_le loads soup
    | split

/-- `get_total_pages` never exceeds `MAX_PAGES`. -/
theorem get_total_pages_le (loads : String → Except Unit PyVal) (soup : HNode) :
    get_total_pages loads soup ≤ MAX_PAGES := by
  unfold get_total_pages
  repeat' first
    | exact Nat.min_le_right _ _
    | exact Nat.le_refl _
    | exact restOfGtp_le loads soup
    | split
    | dsimp only

/-! ## Claims C8 and C9 -/

/-- C8: the pagination loop stops as soon as a page fetch fails, a page
yields zero links, or a page after page 1 yields zero links outside the
accumulated set; in particular, when page 3 returns exactly the union of
the links of pages 1-2, the collector stops after page 3 (page 4 is never
fetched) and returns the deduplicated union. -/
theorem c8_collector_stops_and_dedups :
    (∀ f mp page acc, page ≤ mp → f page = none →
       collectAux f mp page acc = (acc, [page])) ∧
    (∀ f mp page acc, page ≤ mp → f page = some [] →
       collectAux f mp page acc = (acc, [page])) ∧
    (∀ f mp page acc l, page ≤ mp → 1 < page → f page = some l → l.toFinset ⊆ acc →
       collectAux f mp page acc = (acc, [page])) ∧
    (∀ loads soup f l1 l2 l3, 3 ≤ get_total_pages loads soup →
       f 1 = some l1 → l1 ≠ [] → f 2 = some l2 → ¬ l2.toFinset ⊆ l1.toFinset →
       f 3 = some l3 → l3.toFinset = l1.toFinset ∪ l2.toFinset →
       get_product_links loads (some soup) ∅ f = (l1.toFinset ∪ l2.toFinset, [1, 2, 3])) := by
  refine ⟨collectAux_stop_fetch, collectAux_stop_nolinks, collectAux_stop_nonew, ?_⟩
  intro loads soup f l1 l2 l3 hmp hf1 hl1 hf2 hns hf3 heq
  have h3 : collectAux f (get_total_pages loads soup) 3 (l1.toFinset ∪ l2.toFinset) =
      (l1.toFinset ∪ l2.toFinset, [3]) :=
    collectAux_stop_nonew f _ 3 _ l3 hmp (by omega) hf3 (by rw [heq])
  have h2le : 2 ≤ get_total_pages loads soup := by omega
  have hl2 : l2 ≠ [] := by
    intro e
    exact hns (by simp [e])
  have h2e : l2.isEmpty = false := by simpa [List.isEmpty_iff] using hl2
  have h2 : collectAux f (get_total_pages loads soup) 2 l1.toFinset =
      (l1.toFinset ∪ l2.toFinset, [2, 3]) := by
    rw [collectAux, dif_pos h2le, hf2]
    simp only [h2e, Bool.false_eq_true, if_false]
    rw [if_neg fun hc => hns (Finset.sdiff_eq_empty_iff_subset.mp hc.1)]
    rw [Finset.union_sdiff_self_eq_union, h3]
  have h1le : 1 ≤ get_total_pages loads soup := by omega
  have h1e : l1.isEmpty = false := by simpa [List.isEmpty_iff] using hl1
  show collectAux f (get_total_pages loads soup) 1 ∅ = (l1.toFinset ∪ l2.toFinset, [1, 2, 3])
  rw [collectAux, dif_pos h1le, hf1]
  simp only [h1e, Bool.false_eq_true, if_false]
  rw [if_neg fun hc => absurd hc.2 (lt_irrefl 1)]
  rw [Finset.sdiff_empty, Finset.empty_union, h2]

/-- Witness for C8: on the mock source where page 3 repeats pages 1-2,
the collector fetches pages 1, 2, 3 only and returns the dedup union. -/
theorem c8_collector_stops_and_dedups_witness :
    get_product_links loadsNone (some docMin) ∅ linksC8 =
      ({"a", "b", "c"}, [1, 2, 3]) := by
  have h := c8_collector_stops_and_dedups.2.2.2 loadsNone docMin linksC8
    ["a", "b"] ["c"] ["a", "b", "c"]
    (by decide) rfl (by decide) rfl (by decide) rfl (by decide)
  exact h.trans (by decide)

/-- C9 (amended): the Link Collector imposes the hard upper bound
`MAX_PAGES = 50` (not a value in the low hundreds) on the number of
listing pages fetched per pagination loop: `get_total_pages` never
exceeds it, the loop fetches at most `maxPages + 1 - page` further pages,
each fetched page number stays within the bound, and so every
`get_product_links` crawl fetches at most 50 listing pages. -/
theorem c9_hard_page_bound :
    MAX_PAGES = 50 ∧
    (∀ loads soup, get_total_pages loads soup ≤ MAX_PAGES) ∧
    (∀ f mp page acc, (collectAux f mp page acc).2.length ≤ mp + 1 - page ∧
       ((collectAux f mp page acc).2.all fun q => decide (q ≤ mp)) = true) ∧
    (∀ loads fc sub f, ((get_product_links loads fc sub f).2).length ≤ MAX_PAGES ∧
       (((get_product_links loads fc sub f).2).all fun q => decide (q ≤ MAX_PAGES)) = true) := by
  refine ⟨rfl, get_total_pages_le, ?_, ?_⟩
  · intro f mp page acc
    exact collectAux_bound f mp (mp + 1 - page) page acc (Nat.le_refl _)
  · intro loads fc sub f
    cases fc with
    | none => simp [get_product_links]
    | some soup =>
      have hb := collectAux_bound f (get_total_pages loads soup)
        (get_total_pages loads soup + 1 - 1) 1 sub (Nat.le_refl _)
      have hle := get_total_pages_le loads soup
      constructor
      · have h1 : ((get_product_links loads (some soup) sub f).2).length =
            (collectAux f (get_total_pages loads soup) 1 sub).2.length := rfl
        rw [h1]
        have := hb.1
        omega
      · have hmem : ∀ q ∈ (collectAux f (get_total_pages loads soup) 1 sub).2,
            q ≤ get_total_pages loads soup := by
          intro q hq
          have hall := hb.2
          rw [List.all_eq_true] at hall
          simpa using hall q hq
        have h1 : (get_product_links loads (some soup) sub f).2 =
            (collectAux f (get_total_pages loads soup) 1 sub).2 := rfl
        rw [h1, List.all_eq_true]
        intro q hq
        simpa using le_trans (hmem q hq) hle

/-- Counterexample for C9 as stated: the hard bound constant observed in
the source is `MAX_PAGES = 50`, which is not "in the low hundreds"
(reading that as at least 100). -/
theorem c9_counterexample_bound_is_fifty : MAX_PAGES = 50 ∧ ¬ 100 ≤ MAX_PAGES :=
  ⟨rfl, by decide⟩

/-! ## Claim C7 -/

/-- A failed fetch makes `parse_product` return the all-error record
without raising. -/
theorem parse_product_fetch_none (loads : String → Except Unit PyVal)
    (fetch : String → Option HNode) (url : String) (h : fetch url = none) :
    parse_product loads fetch url = Except.ok (errorRecord url) := by
  unfold parse_product
  rw [h]

/-- C7: a fetch failure for one URL never aborts the batch - the failed
URL's `parse_product` returns (never raises) the record whose seven data
fields are the error sentinel "Error fetching page" (distinct from
"Not indicated") along with the original URL; and whenever every URL's
parse succeeds, the batch emits exactly one record per URL, each record
determined by its own URL alone, with the error record at exactly the
failed URLs. -/
theorem c7_fetch_failure_isolated :
    (∀ loads fetch url, fetch url = none →
       parse_product loads fetch url = Except.ok (errorRecord url)) ∧
    (∀ url, (errorRecord url).productTitle = PyVal.vstr "Error fetching page" ∧
       (errorRecord url).productUrl = url ∧
       ("Error fetching page" : String) ≠ "Not indicated") ∧
    (∀ loads fetch urls, (∀ u ∈ urls, ∃ r, parse_product loads fetch u = Except.ok r) →
       ∃ rs, scrapeAll loads fetch urls = Except.ok rs ∧ rs.length = urls.length ∧
         ∀ i (hi : i < urls.length) (hi2 : i < rs.length),
           parse_product loads fetch (urls.get ⟨i, hi⟩) = Except.ok (rs.get ⟨i, hi2⟩) ∧
           (fetch (urls.get ⟨i, hi⟩) = none →
             rs.get ⟨i, hi2⟩ = errorRecord (urls.get ⟨i, hi⟩))) := by
  refine ⟨parse_product_fetch_none, fun url => ⟨rfl, rfl, by decide⟩, ?_⟩
  intro loads fetch urls h
  induction urls with
  | nil => exact ⟨[], rfl, rfl, fun i hi => absurd hi (Nat.not_lt_zero i)⟩
  | cons u us ih =>
    obtain ⟨r, hr⟩ := h u (List.mem_cons_self u us)
    obtain ⟨rs, hrs, hlen, hidx⟩ := ih fun v hv => h v (List.mem_cons_of_mem u hv)
    refine ⟨r :: rs, ?_, by simp [hlen], ?_⟩
    · unfold scrapeAll at hrs ⊢
      rw [List.mapM_cons, hr, hrs]
      rfl
    · intro i hi hi2
      cases i with
      | zero =>
        refine ⟨by simpa using hr, ?_⟩
        intro hfn
        have he := parse_product_fetch_none loads fetch u hfn
        have : Except.ok (errorRecord u) = Except.ok r := he.symm.trans hr
        simpa using (Except.ok.inj this).symm
      | succ j =>
        have hj : j < us.length := by simpa using hi
        have hj2 : j < rs.length := by simpa using hi2
        have hx := hidx j hj hj2
        simpa using hx

/-- Witness for C7: a three-URL batch whose second fetch fails still
yields three records. -/
theorem c7_fetch_failure_isolated_witness :
    ∃ rs, scrapeAll loadsNone fetchC7 c7urls = Except.ok rs ∧ rs.length = 3 := by
  have hall : ∀ u ∈ c7urls, ∃ r, parse_product loadsNone fetchC7 u = Except.ok r := by
    intro u hu
    fin_cases hu
    · exact ⟨_, rfl⟩
    · exact ⟨_, rfl⟩
    · exact ⟨_, rfl⟩
  obtain ⟨rs, h1, h2, _⟩ := c7_fetch_failure_isolated.2.2 loadsNone fetchC7 c7urls hall
  exact ⟨rs, h1, by simpa using h2⟩

/-! ## Claim C2 -/

/-- A prefix of a prefix: `(a ++ b).isPrefixOf l` implies `a.isPrefixOf l`. -/
theorem isPrefixOf_append_left :
    ∀ (a b l : List Char), (a ++ b).isPrefixOf l = true → a.isPrefixOf l = true
  | [], _, l, _ => by cases l <;> rfl
  | _ :: _, _, [], h => by simp [List.isPrefixOf] at h
  | x :: a, b, y :: l, h => by
    simp only [List.cons_append, List.isPrefixOf, Bool.and_eq_true] at h ⊢
    exact ⟨h.1, isPrefixOf_append_left a b l h.2⟩

/-- Text containing "warranty address" contains "warranty". -/
theorem strContains_addr_warranty (t : String) :
    strContains t "warranty address" = true → strContains t "warranty" = true := by
  intro h
  unfold strContains at h ⊢
  rw [List.any_eq_true] at h ⊢
  obtain ⟨i, hi, hp⟩ := h
  have hsplit : ("warranty address".data : List Char) = "warranty".data ++ " address".data := rfl
  rw [hsplit] at hp
  exact ⟨i, hi, isPrefixOf_append_left _ _ _ hp⟩

/-- Every node matched by the warranty-address search is matched by the
warranty-heading search. -/
theorem addrPred_implies_headingPred (n : HNode) :
    warrantyAddressPred n = true → warrantyHeadingPred n = true := by
  cases n with
  | textN s => simp [warrantyAddressPred, warrantyHeadingPred]
  | elem t a cs =>
    simp only [warrantyAddressPred, warrantyHeadingPred, Bool.and_eq_true]
    rintro ⟨h1, h2⟩
    exact ⟨h1, strContains_addr_warranty _ h2⟩

mutual

/-- If the broader search finds nothing in a subtree, neither does the
narrower one. -/
def findElemSibN_none_mono (p q : HNode → Bool) (himp : ∀ n, q n = true → p n = true) :
    (n : HNode) → findElemSibN p n = none → findElemSibN q n = none
  | .textN _, _ => rfl
  | .elem t a cs, h => by
    simp only [findElemSibN] at h ⊢
    exact findElemSibL_none_mono p q himp cs h

/-- Forest version of `findElemSibN_none_mono`. -/
def findElemSibL_none_mono (p q : HNode → Bool) (himp : ∀ n, q n = true → p n = true) :
    (l : List HNode) → findElemSibL p l = none → findElemSibL q l = none
  | [], _ => rfl
  | c :: rest, h => by
    cases c with
    | textN s =>
      simp only [findElemSibL] at h ⊢
      exact findElemSibL_none_mono p q himp rest h
    | elem t a cs =>
      simp only [findElemSibL] at h ⊢
      by_cases hp : p (.elem t a cs) = true
      · rw [if_pos hp] at h
        exact absurd h (by simp)
      · have hq : ¬ q (.elem t a cs) = true := fun hh => hp (himp _ hh)
        rw [if_neg hp] at h
        rw [if_neg hq]
        cases hn : findElemSibN p (.elem t a cs) with
        | some r =>
          rw [hn] at h
          exact absurd h (by simp)
        | none =>
          rw [hn] at h
          rw [findElemSibN_none_mono p q himp _ hn]
          exact findElemSibL_none_mono p q himp rest h

end

/-- C2 counterexample: on a page whose only warranty data is the
specification row "Warranty Address" / "123 Main St", the extractor puts
the value into the warranty-specs field and leaves the warranty-address
field at the sentinel - the claimed precedence does not exist. -/
theorem c2_counterexample :
    extract_warranty_fields docC2 (PyVal.vstr "Not indicated") =
      Except.ok ("Not indicated", "123 Main St", "Not indicated") ∧
    strContains (pyLower (getTextConcatStrip c2Cell1)) "warranty address" = true :=
  ⟨by decide, by decide⟩

/-- C2 (amended): the `tr` scan classifies a row by the bare substring
"warranty", with no address exclusion, so a spec row whose label contains
"warranty address" populates `warrantySpecs` with the row's value; the
`warrantyAddress` field is populated only from `p`/`div`/`span` elements
whose text contains "warranty address" (here: none, so it stays at the
sentinel). -/
theorem c2_amended (soup : HNode) (s : String) (c1 c2 : HNode)
    (hnohead : findElemSib warrantyHeadingPred (mainContent soup) = none)
    (hrow : firstWarrantyRowCells (mainContent soup) = some (c1, c2))
    (_haddr : strContains (pyLower (getTextConcatStrip c1)) "warranty address" = true)
    (hne : getTextConcatStrip c2 ≠ "Not indicated") :
    extract_warranty_fields soup (PyVal.vstr s) =
      Except.ok ((if titleWarrantyRe s then s else "Not indicated"),
        getTextConcatStrip c2, "Not indicated") := by
  have hnoaddr : findElemSib warrantyAddressPred (mainContent soup) = none :=
    findElemSibL_none_mono warrantyHeadingPred warrantyAddressPred
      addrPred_implies_headingPred _ hnohead
  unfold extract_warranty_fields
  by_cases htr : pyTruthy (PyVal.vstr s) = true
  · rw [if_pos htr]
    simp only [hnohead, hrow, hnoaddr]
    simp [hne]
  · rw [if_neg htr]
    have hs : s = "" := by
      by_contra hs
      exact htr (by simpa [pyTruthy] using hs)
    subst hs
    simp only [hnohead, hrow, hnoaddr]
    simp [hne, titleWarrantyRe, strContains, durMatchAt]

/-- Witness for C2 (amended) at the concrete table page. -/
theorem c2_amended_witness :
    extract_warranty_fields docC2 (PyVal.vstr "Not indicated") =
      Except.ok ("Not indicated", "123 Main St", "Not indicated") := by
  have h := c2_amended docC2 "Not indicated" c2Cell1 c2Cell2 rfl rfl (by decide) (by decide)
  exact h.trans (by decide)

/-! ## Characterization of `extract_basic_fields` after the dead dataLayer stage -/

/-- Because `parse_data_layer` always yields the empty dict, the dataLayer
stage of `extract_basic_fields` is the identity and the extraction reduces
to ld+json, fallbacks and `clean_price`. -/
theorem extract_basic_fields_char (loads : String → Except Unit PyVal) (soup : HNode) :
    extract_basic_fields loads soup = (do
      let products ← find_product_objs_from_ldjson loads soup
      let r2 := ldStage products notIndicated notIndicated notIndicated notIndicated
      let r3 := fallbackStage (mainContent soup) r2.1 r2.2.2.1 r2.2.2.2
      let pc ← clean_price r3.2.1
      pure (r3.1, pc, r2.2.1, r3.2.2)) := by
  unfold extract_basic_fields
  rw [parse_data_layer_empty]
  rfl

/-- Name component of the fallback stage. -/
theorem fallbackStage_name (main : HNode) (n p se : PyVal) :
    (fallbackStage main n p se).1 =
      if n = notIndicated then PyVal.vstr (text_or_na (selectOne h1Sels main)) else n := rfl

/-- Price component of the fallback stage. -/
theorem fallbackStage_price (main : HNode) (n p se : PyVal) :
    (fallbackStage main n p se).2.1 =
      if p = notIndicated then PyVal.vstr (text_or_na (selectOne priceSels main)) else p := rfl

/-- `text_or_na` never returns the empty string. -/
theorem text_or_na_ne_empty (o : Option HNode) : text_or_na o ≠ "" := by
  cases o with
  | none => simp [text_or_na]
  | some n =>
    unfold text_or_na
    dsimp only
    by_cases ht : (getTextSpaceStrip n != "") = true
    · rw [if_pos ht]
      simpa using ht
    · rw [if_neg ht]
      simp

/-- `clean_price` on a non-empty string value: the sentinel passes
through, anything else is normalized by `cleanPriceStr`. -/
theorem clean_price_vstr (t : String) (hne : t ≠ "") :
    clean_price (PyVal.vstr t) =
      Except.ok (if t = "Not indicated" then notIndicated
        else PyVal.vstr (cleanPriceStr t)) := by
  by_cases ht0 : t = "Not indicated"
  · simp [clean_price, ht0, notIndicated, pyTruthy]
  · have htr : pyTruthy (.vstr t) = true := by simp [pyTruthy, hne]
    simp [clean_price, htr, ht0, notIndicated]

/-- After `clean_price`, only digits and periods remain. -/
theorem cleanPriceStr_chars (s : String) :
    ((cleanPriceStr s).data.all fun c => c.isDigit || c == '.') = true := by
  unfold cleanPriceStr
  rw [List.all_eq_true]
  intro c hc
  have hc2 : c ∈ (s.data.filter fun c => c.isDigit || c == ',' || c == '.').filter
      (fun c => !(c == ',')) := hc
  obtain ⟨h1, h2⟩ := List.mem_filter.mp hc2
  obtain ⟨_, hp1⟩ := List.mem_filter.mp h1
  simp only [Bool.or_eq_true] at hp1 ⊢
  rcases hp1 with (hd | hcomma) | hdot
  · exact Or.inl hd
  · rw [hcomma] at h2
    simp at h2
  · exact Or.inr hdot

/-- Evaluation of `extract_basic_fields` once the recovered product list
is known. -/
theorem extract_with_products (loads : String → Except Unit PyVal) (soup : HNode)
    (ps : List PyVal) (hp : find_product_objs_from_ldjson loads soup = Except.ok ps) :
    extract_basic_fields loads soup = (do
      let pc ← clean_price (fallbackStage (mainContent soup)
          (ldStage ps notIndicated notIndicated notIndicated notIndicated).1
          (ldStage ps notIndicated notIndicated notIndicated notIndicated).2.2.1
          (ldStage ps notIndicated notIndicated notIndicated notIndicated).2.2.2).2.1
      pure ((fallbackStage (mainContent soup)
          (ldStage ps notIndicated notIndicated notIndicated notIndicated).1
          (ldStage ps notIndicated notIndicated notIndicated notIndicated).2.2.1
          (ldStage ps notIndicated notIndicated notIndicated notIndicated).2.2.2).1, pc,
        (ldStage ps notIndicated notIndicated notIndicated notIndicated).2.1,
        (fallbackStage (mainContent soup)
          (ldStage ps notIndicated notIndicated notIndicated notIndicated).1
          (ldStage ps notIndicated notIndicated notIndicated notIndicated).2.2.1
          (ldStage ps notIndicated notIndicated notIndicated notIndicated).2.2.2).2.2)) := by
  rw [extract_basic_fields_char, hp]
  rfl

/-- Full value of `extract_basic_fields` when the reader recovers no
product records: everything comes from the HTML fallbacks. -/
theorem extract_no_products_val (loads : String → Except Unit PyVal) (soup : HNode)
    (hnold : find_product_objs_from_ldjson loads soup = Except.ok []) :
    extract_basic_fields loads soup = Except.ok
      ((fallbackStage (mainContent soup) notIndicated notIndicated notIndicated).1,
       (if text_or_na (selectOne priceSels (mainContent soup)) = "Not indicated" then notIndicated
        else PyVal.vstr (cleanPriceStr (text_or_na (selectOne priceSels (mainContent soup))))),
       notIndicated,
       (fallbackStage (mainContent soup) notIndicated notIndicated notIndicated).2.2) := by
  rw [extract_with_products loads soup [] hnold]
  rw [show (ldStage [] notIndicated notIndicated notIndicated notIndicated) =
    (notIndicated, notIndicated, notIndicated, notIndicated) from rfl]
  dsimp only
  rw [fallbackStage_price, if_pos rfl]
  rw [clean_price_vstr _ (text_or_na_ne_empty _)]
  rfl

/-! ## Claim C3 -/

/-- C3 counterexample: the page shows the raw price text "KSh 1,299" but
the extracted price field is the normalized "1299" - currency symbol,
space and comma are stripped by `clean_price`. -/
theorem c3_counterexample :
    extract_basic_fields loadsNone docC3 =
      Except.ok (notIndicated, PyVal.vstr "1299", notIndicated, notIndicated) ∧
    text_or_na (selectOne priceSels (mainContent docC3)) = "KSh 1,299" ∧
    ("1299" : String) ≠ "KSh 1,299" :=
  ⟨by decide, by decide, by decide⟩

/-- C3 (amended): the price field is not the raw page text - it is the
selector text normalized by `clean_price`: every character other than
digits, commas and periods removed and commas then removed, so only
digits and periods remain (the raw sentinel passes through). -/
theorem c3_amended (loads : String → Except Unit PyVal) (soup : HNode) (node : HNode)
    (t4 : PyVal × PyVal × PyVal × PyVal)
    (hnold : find_product_objs_from_ldjson loads soup = Except.ok [])
    (hnode : selectOne priceSels (mainContent soup) = some node)
    (ht : extract_basic_fields loads soup = Except.ok t4) :
    t4.2.1 = (if text_or_na (some node) = "Not indicated" then notIndicated
      else PyVal.vstr (cleanPriceStr (text_or_na (some node)))) ∧
    ∀ s, ((cleanPriceStr s).data.all fun c => c.isDigit || c == '.') = true := by
  refine ⟨?_, cleanPriceStr_chars⟩
  rw [extract_no_products_val loads soup hnold] at ht
  have h4 := Except.ok.inj ht
  rw [← h4, hnode]

/-- Witness for C3 (amended) at the concrete page: the extracted price is
exactly the clean_price normalization of the selector text. -/
theorem c3_amended_witness :
    PyVal.vstr "1299" =
      (if text_or_na (some c3PriceNode) = "Not indicated" then notIndicated
       else PyVal.vstr (cleanPriceStr (text_or_na (some c3PriceNode)))) := by
  have h := c3_amended loadsNone docC3 c3PriceNode
    (notIndicated, PyVal.vstr "1299", notIndicated, notIndicated) rfl rfl (by decide)
  exact h.1

/-! ## Claim C5 -/

/-- C5 counterexample: a structured (JSON-LD) seller value equal to
"Follow" is returned as the seller - the rejection only guards the HTML
strategies. -/
theorem c5_counterexample :
    extract_basic_fields loadsFollow docFollow =
      Except.ok (notIndicated, notIndicated, notIndicated, PyVal.vstr "Follow") ∧
    PyVal.vstr "Follow" ≠ notIndicated :=
  ⟨by decide, by decide⟩

/-- The seller fallback with a selector node whose text contains
"follow": the match is rejected, no further text-scan strategy runs, and
the seller resolves to "Jumia" exactly when the Jumia-Express image is
present, else to the sentinel. -/
theorem fallbackStage_seller_follow (main : HNode) (node : HNode)
    (hnode : selectOne sellerSels main = some node)
    (hfollow : strContains (pyLower (text_or_na (some node))) "follow" = true) :
    (fallbackStage main notIndicated notIndicated notIndicated).2.2 =
      (if (selectOne imgJumiaSels main).isSome then PyVal.vstr "Jumia" else notIndicated) := by
  unfold fallbackStage
  rw [hnode]
  dsimp only
  rw [if_pos rfl]
  rw [hfollow]
  simp

/-- C5 (amended): the "Follow" rejection applies only to the HTML seller
selector strategy (any text containing "follow", case-insensitively, is
rejected, after which only the Jumia-Express check may still set the
seller); structured-record seller values are returned unchecked. -/
theorem c5_amended (loads : String → Except Unit PyVal) (soup : HNode) (node : HNode)
    (t4 : PyVal × PyVal × PyVal × PyVal)
    (hnold : find_product_objs_from_ldjson loads soup = Except.ok [])
    (hnode : selectOne sellerSels (mainContent soup) = some node)
    (hfollow : strContains (pyLower (text_or_na (some node))) "follow" = true)
    (ht : extract_basic_fields loads soup = Except.ok t4) :
    t4.2.2.2 = (if (selectOne imgJumiaSels (mainContent soup)).isSome then PyVal.vstr "Jumia"
      else notIndicated) := by
  rw [extract_no_products_val loads soup hnold] at ht
  have h4 := Except.ok.inj ht
  rw [← h4]
  exact fallbackStage_seller_follow (mainContent soup) node hnode hfollow

/-- Witness for C5 (amended): on the page whose seller box reads
"Follow", the extractor resolves the seller to the sentinel. -/
theorem c5_amended_witness :
    extract_basic_fields loadsNone docSellerFollow =
      Except.ok (notIndicated, notIndicated, notIndicated, notIndicated) ∧
    notIndicated = (if (selectOne imgJumiaSels (mainContent docSellerFollow)).isSome
      then PyVal.vstr "Jumia" else notIndicated) := by
  refine ⟨by decide, ?_⟩
  have h := c5_amended loadsNone docSellerFollow c5SellerNode
    (notIndicated, notIndicated, notIndicated, notIndicated) rfl rfl (by decide) (by decide)
  exact h

/-! ## Claim C4 -/

/-- The seller fallback leaves a non-sentinel seller untouched. -/
theorem fallbackStage_seller_keep (main : HNode) (n p se : PyVal) (hne : se ≠ notIndicated) :
    (fallbackStage main n p se).2.2 = se := by
  unfold fallbackStage
  dsimp only
  rw [if_neg hne]
  rw [if_neg fun hc => hne hc.1]

/-- Components of a successful extraction in terms of the two stages. -/
theorem extract_components (loads : String → Except Unit PyVal) (soup : HNode)
    (ps : List PyVal) (t4 : PyVal × PyVal × PyVal × PyVal)
    (hp : find_product_objs_from_ldjson loads soup = Except.ok ps)
    (ht : extract_basic_fields loads soup = Except.ok t4) :
    t4.1 = (fallbackStage (mainContent soup)
        (ldStage ps notIndicated notIndicated notIndicated notIndicated).1
        (ldStage ps notIndicated notIndicated notIndicated notIndicated).2.2.1
        (ldStage ps notIndicated notIndicated notIndicated notIndicated).2.2.2).1 ∧
    clean_price (fallbackStage (mainContent soup)
        (ldStage ps notIndicated notIndicated notIndicated notIndicated).1
        (ldStage ps notIndicated notIndicated notIndicated notIndicated).2.2.1
        (ldStage ps notIndicated notIndicated notIndicated notIndicated).2.2.2).2.1 =
      Except.ok t4.2.1 ∧
    t4.2.2.1 = (ldStage ps notIndicated notIndicated notIndicated notIndicated).2.1 ∧
    t4.2.2.2 = (fallbackStage (mainContent soup)
        (ldStage ps notIndicated notIndicated notIndicated notIndicated).1
        (ldStage ps notIndicated notIndicated notIndicated notIndicated).2.2.1
        (ldStage ps notIndicated notIndicated notIndicated notIndicated).2.2.2).2.2 := by
  rw [extract_with_products loads soup ps hp] at ht
  cases hcp : clean_price (fallbackStage (mainContent soup)
      (ldStage ps notIndicated notIndicated notIndicated notIndicated).1
      (ldStage ps notIndicated notIndicated notIndicated notIndicated).2.2.1
      (ldStage ps notIndicated notIndicated notIndicated notIndicated).2.2.2).2.1 with
  | error e =>
    rw [hcp] at ht
    exact Except.noConfusion
      (show (Except.error e : Except Unit (PyVal × PyVal × PyVal × PyVal)) = Except.ok t4 from ht)
  | ok pc =>
    rw [hcp] at ht
    have h4 : Except.ok ((fallbackStage (mainContent soup)
        (ldStage ps notIndicated notIndicated notIndicated notIndicated).1
        (ldStage ps notIndicated notIndicated notIndicated notIndicated).2.2.1
        (ldStage ps notIndicated notIndicated notIndicated notIndicated).2.2.2).1, pc,
      (ldStage ps notIndicated notIndicated notIndicated notIndicated).2.1,
      (fallbackStage (mainContent soup)
        (ldStage ps notIndicated notIndicated notIndicated notIndicated).1
        (ldStage ps notIndicated notIndicated notIndicated notIndicated).2.2.1
        (ldStage ps notIndicated notIndicated notIndicated notIndicated).2.2.2).2.2) =
      Except.ok t4 := ht
    have h5 := Except.ok.inj h4
    refine ⟨?_, ?_, ?_, ?_⟩
    · rw [← h5]
    · rw [← h5]
    · rw [← h5]
    · rw [← h5]

/-- C4 counterexample: a structured name that is present but empty is
returned as the (empty) name - the h1 heuristic, although available with
the value "Widget", is not consulted, because the fallback fires only on
equality with the sentinel string. -/
theorem c4_counterexample :
    extract_basic_fields loadsEmptyName docEmptyName =
      Except.ok (PyVal.vstr "", notIndicated, notIndicated, notIndicated) ∧
    text_or_na (selectOne h1Sels (mainContent docEmptyName)) = "Widget" ∧
    PyVal.vstr "" ≠ PyVal.vstr "Widget" :=
  ⟨by decide, by decide, by decide⟩

/-- C4 (amended): a present structured key always wins, with the fallback
consulted exactly when the resulting value equals the string
"Not indicated" - not when it is empty: name follows the sentinel test,
sku is returned unconditionally (no heuristic exists for it), price is
returned through `clean_price`, and seller is returned verbatim. -/
theorem c4_amended (loads : String → Except Unit PyVal) (soup : HNode) (p : PyVal)
    (rest : List PyVal) (t4 : PyVal × PyVal × PyVal × PyVal)
    (hp : find_product_objs_from_ldjson loads soup = Except.ok (p :: rest))
    (ht : extract_basic_fields loads soup = Except.ok t4) :
    (∀ v, pyGet p "name" = some v →
       t4.1 = if v = notIndicated
         then PyVal.vstr (text_or_na (selectOne h1Sels (mainContent soup))) else v) ∧
    (∀ v, pyGet p "sku" = some v → t4.2.2.1 = v) ∧
    (∀ o vp, pyGet p "offers" = some (PyVal.vdict o) → o.lookup "price" = some vp →
       vp ≠ notIndicated → clean_price vp = Except.ok t4.2.1) ∧
    (∀ o sl vs, pyGet p "offers" = some (PyVal.vdict o) →
       o.lookup "seller" = some (PyVal.vdict sl) → sl.lookup "name" = some vs →
       vs ≠ notIndicated → t4.2.2.2 = vs) := by
  obtain ⟨hn, hpr, hsk, hse⟩ := extract_components loads soup (p :: rest) t4 hp ht
  refine ⟨?_, ?_, ?_, ?_⟩
  · intro v hv
    rw [hn, fallbackStage_name]
    have hA1 : (ldStage (p :: rest) notIndicated notIndicated notIndicated notIndicated).1 = v := by
      show pyGetD p "name" notIndicated = v
      simp [pyGetD, hv]
    rw [hA1]
  · intro v hv
    rw [hsk]
    show pyGetD p "sku" notIndicated = v
    simp [pyGetD, hv]
  · intro o vp ho hvp hne
    have hA : (ldStage (p :: rest) notIndicated notIndicated notIndicated notIndicated).2.2.1 = vp := by
      simp [ldStage, ho, hvp]
    rw [fallbackStage_price, hA, if_neg hne] at hpr
    exact hpr
  · intro o sl vs ho hsl hvs hne
    have hA : (ldStage (p :: rest) notIndicated notIndicated notIndicated notIndicated).2.2.2 = vs := by
      simp [ldStage, ho, hsl, hvs]
    rw [hse, hA]
    exact fallbackStage_seller_keep (mainContent soup) _ _ vs hne

/-- Witness for C4 (amended): on a page with a fully string-valued
structured record and a conflicting `h1` heading, the structured values
win for all four fields. -/
theorem c4_amended_witness :
    extract_basic_fields loadsC4w docC4w = Except.ok c4wTuple ∧
    c4wTuple.1 = PyVal.vstr "Alpha" ∧ c4wTuple.2.2.1 = PyVal.vstr "S1" ∧
    clean_price (PyVal.vstr "10") = Except.ok c4wTuple.2.1 ∧
    c4wTuple.2.2.2 = PyVal.vstr "Ben" ∧
    text_or_na (selectOne h1Sels (mainContent docC4w)) = "Other" := by
  have h := c4_amended loadsC4w docC4w
    (PyVal.vdict [("@type", PyVal.vstr "Product"), ("name", PyVal.vstr "Alpha"),
      ("sku", PyVal.vstr "S1"),
      ("offers", PyVal.vdict [("price", PyVal.vstr "10"),
        ("seller", PyVal.vdict [("name", PyVal.vstr "Ben")])])])
    [] c4wTuple (by decide) (by decide)
  refine ⟨by decide, ?_, ?_, ?_, ?_, by decide⟩
  · exact (h.1 (PyVal.vstr "Alpha") rfl).trans (if_neg (by decide))
  · exact h.2.1 (PyVal.vstr "S1") rfl
  · exact h.2.2.1 [("price", PyVal.vstr "10"),
      ("seller", PyVal.vdict [("name", PyVal.vstr "Ben")])] (PyVal.vstr "10") rfl rfl (by decide)
  · exact h.2.2.2 [("price", PyVal.vstr "10"),
      ("seller", PyVal.vdict [("name", PyVal.vstr "Ben")])] [("name", PyVal.vstr "Ben")]
      (PyVal.vstr "Ben") rfl rfl rfl (by decide)

/-! ## Claim C6 -/

/-- A product dict contributes itself to `directProduct`. -/
theorem directProduct_self (p : PyVal) (h : isProductDict p = true) :
    directProduct p = [p] := by
  cases p with
  | vdict kvs =>
    simp only [isProductDict] at h
    simp only [directProduct]
    rw [if_pos (of_decide_eq_true h)]
  | vstr s => simp [isProductDict] at h
  | vint n => simp [isProductDict] at h
  | vbool b => simp [isProductDict] at h
  | vnone => simp [isProductDict] at h
  | vlist xs => simp [isProductDict] at h

/-- Direct product records in the block list end up in the reader's
output. -/
theorem fpoGo_direct_mem : ∀ (objs ps : List PyVal) (p : PyVal),
    fpoGo objs = Except.ok ps → p ∈ objs → isProductDict p = true → p ∈ ps
  | [], _, p, _, hm, _ => absurd hm (List.not_mem_nil p)
  | obj :: rest, ps, p, h, hm, hprod => by
    simp only [fpoGo] at h
    cases hg : graphProducts obj with
    | error e =>
      rw [hg] at h
      exact Except.noConfusion
        (show (Except.error e : Except Unit (List PyVal)) = Except.ok ps from h)
    | ok fg =>
      rw [hg] at h
      cases hr : fpoGo rest with
      | error e =>
        rw [hr] at h
        exact Except.noConfusion
          (show (Except.error e : Except Unit (List PyVal)) = Except.ok ps from h)
      | ok more =>
        rw [hr] at h
        have hps : fg ++ directProduct obj ++ more = ps :=
          Except.ok.inj
            (show Except.ok (fg ++ directProduct obj ++ more) = Except.ok ps from h)
        rcases List.mem_cons.mp hm with rfl | hm2
        · rw [← hps]
          have hself : p ∈ directProduct p := by
            rw [directProduct_self p hprod]
            exact List.mem_singleton.mpr rfl
          exact List.mem_append.mpr (Or.inl (List.mem_append.mpr (Or.inr hself)))
        · rw [← hps]
          exact List.mem_append.mpr (Or.inr (fpoGo_direct_mem rest more p hr hm2 hprod))

/-- Product records inside an `@graph` list of a block object end up in
the reader's output. -/
theorem fpoGo_graph_mem :
    ∀ (objs ps : List PyVal) (kvs : List (String × PyVal)) (gs : List PyVal) (p : PyVal),
    fpoGo objs = Except.ok ps → PyVal.vdict kvs ∈ objs →
    kvs.lookup "@graph" = some (PyVal.vlist gs) → p ∈ gs → isProductDict p = true → p ∈ ps
  | [], _, kvs, _, _, _, hm, _, _, _ => absurd hm (List.not_mem_nil (PyVal.vdict kvs))
  | obj :: rest, ps, kvs, gs, p, h, hm, hgr, hpg, hprod => by
    simp only [fpoGo] at h
    cases hg : graphProducts obj with
    | error e =>
      rw [hg] at h
      exact Except.noConfusion
        (show (Except.error e : Except Unit (List PyVal)) = Except.ok ps from h)
    | ok fg =>
      rw [hg] at h
      cases hr : fpoGo rest with
      | error e =>
        rw [hr] at h
        exact Except.noConfusion
          (show (Except.error e : Except Unit (List PyVal)) = Except.ok ps from h)
      | ok more =>
        rw [hr] at h
        have hps : fg ++ directProduct obj ++ more = ps :=
          Except.ok.inj
            (show Except.ok (fg ++ directProduct obj ++ more) = Except.ok ps from h)
        rcases List.mem_cons.mp hm with heq | hm2
        · have hgval : graphProducts (PyVal.vdict kvs) = Except.ok (gs.filter isProductDict) := by
            simp only [graphProducts]
            rw [hgr]
            simp [pyIter]
          rw [← heq] at hg
          have hfg : fg = gs.filter isProductDict :=
            (Except.ok.inj (hgval.symm.trans hg)).symm
          rw [← hps]
          have hmem : p ∈ fg := by
            rw [hfg]
            exact List.mem_filter.mpr ⟨hpg, hprod⟩
          exact List.mem_append.mpr (Or.inl (List.mem_append.mpr (Or.inl hmem)))
        · rw [← hps]
          exact List.mem_append.mpr
            (Or.inr (fpoGo_graph_mem rest more kvs gs p hr hm2 hgr hpg hprod))

/-- A top-level ld+json array is flattened into the object stream. -/
theorem ldjGo_array_mem (loads : String → Except Unit PyVal) :
    ∀ (ts : List String) (t : String) (xs : List PyVal) (p : PyVal),
    t ∈ ts → t ≠ "" → loads t = Except.ok (PyVal.vlist xs) → p ∈ xs → p ∈ ldjGo loads ts
  | [], t, _, _, hm, _, _, _ => absurd hm (List.not_mem_nil t)
  | s :: rest, t, xs, p, hm, hne, hl, hp => by
    rcases List.mem_cons.mp hm with rfl | hm2
    · have hb : (t != "") = true := by simpa using hne
      simp only [ldjGo, hb, if_true, hl]
      exact List.mem_append.mpr (Or.inl hp)
    · simp only [ldjGo]
      exact List.mem_append.mpr (Or.inr (ldjGo_array_mem loads rest t xs p hm2 hne hl hp))

/-- C6 counterexample: a page whose only structured record is a product
attached as the `mainEntity` of a containing document - nesting shape (c)
- yields no recovered product records: the reader does not recognize the
main-entity shape. -/
theorem c6_counterexample :
    all_ldjson_objects loadsMainEntity docMainEntity = [c6MainEntityObj] ∧
    pyGet c6MainEntityObj "mainEntity" = some c6MainEntityProduct ∧
    isProductDict c6MainEntityProduct = true ∧
    find_product_objs_from_ldjson loadsMainEntity docMainEntity = Except.ok [] :=
  ⟨by decide, by decide, by decide, by decide⟩

/-- C6 (amended): the reader recognizes (a) direct product records, (b)
product records nested inside an `@graph` container, and (c') product
records inside a top-level ld+json array (flattened by the block reader);
it does not recognize a record attached as the main entity of a
containing document. -/
theorem c6_amended (loads : String → Except Unit PyVal) (soup : HNode) (p : PyVal)
    (ps : List PyVal) (h : find_product_objs_from_ldjson loads soup = Except.ok ps) :
    (p ∈ all_ldjson_objects loads soup → isProductDict p = true → p ∈ ps) ∧
    (∀ kvs gs, PyVal.vdict kvs ∈ all_ldjson_objects loads soup →
       kvs.lookup "@graph" = some (PyVal.vlist gs) → p ∈ gs → isProductDict p = true →
       p ∈ ps) ∧
    (∀ t xs, t ∈ ldScriptTexts soup → t ≠ "" → loads t = Except.ok (PyVal.vlist xs) →
       p ∈ xs → p ∈ all_ldjson_objects loads soup) := by
  refine ⟨?_, ?_, ?_⟩
  · intro hm hprod
    exact fpoGo_direct_mem (all_ldjson_objects loads soup) ps p h hm hprod
  · intro kvs gs hm hgr hpg hprod
    exact fpoGo_graph_mem (all_ldjson_objects loads soup) ps kvs gs p h hm hgr hpg hprod
  · intro t xs hts hne hl hp
    exact ldjGo_array_mem loads (ldScriptTexts soup) t xs p hts hne hl hp

/-- Witness for C6 (amended): a record nested in `@graph` is recovered. -/
theorem c6_amended_witness :
    find_product_objs_from_ldjson loadsGraph docGraph = Except.ok [c6GraphProduct] ∧
    c6GraphProduct ∈ [c6GraphProduct] := by
  refine ⟨by decide, ?_⟩
  exact (c6_amended loadsGraph docGraph c6GraphProduct [c6GraphProduct] (by decide)).2.1
    [("@graph", PyVal.vlist [c6GraphProduct])] [c6GraphProduct]
    (by decide) (by decide) (by decide) (by decide)

/-! ## Claim C1 -/

/-- `x or "Not indicated"` is always truthy. -/
theorem pyOr_ni_truthy (v : PyVal) : pyTruthy (pyOr v notIndicated) = true := by
  unfold pyOr
  split
  · assumption
  · decide

/-- `x or "Not indicated"` on strings is never empty. -/
theorem strOr_ni_ne (s : String) : strOr s "Not indicated" ≠ "" := by
  unfold strOr
  split
  · simp_all
  · decide

/-- `x or "Not indicated"` on a string value yields a non-empty string
value. -/
theorem pyOr_vstr (s : String) :
    ∃ u, pyOr (PyVal.vstr s) notIndicated = PyVal.vstr u ∧ u ≠ "" := by
  by_cases h : s = ""
  · exact ⟨"Not indicated", by simp [pyOr, pyTruthy, h, notIndicated], by decide⟩
  · exact ⟨s, by simp [pyOr, pyTruthy, h], h⟩

/-- A value satisfying `pyIsStr` is some `vstr`. -/
theorem pyIsStr_exists (v : PyVal) (h : pyIsStr v = true) : ∃ s, v = PyVal.vstr s := by
  cases v <;> simp [pyIsStr] at h ⊢

/-- `getD` with the sentinel default of a string-or-absent option is a
string value. -/
theorem valueIsStr_getD (ov : Option PyVal) (h : valueIsStrOrAbsent ov = true) :
    pyIsStr (ov.getD notIndicated) = true := by
  cases ov with
  | none => decide
  | some v =>
    cases v with
    | vstr s => simp [pyIsStr]
    | vint n => simp [valueIsStrOrAbsent] at h
    | vbool b => simp [valueIsStrOrAbsent] at h
    | vnone => simp [valueIsStrOrAbsent] at h
    | vlist xs => simp [valueIsStrOrAbsent] at h
    | vdict kvs => simp [valueIsStrOrAbsent] at h

/-- When the consulted structured values are strings, every component of
the ld+json stage is a string value. -/
theorem ldStage_strs (ps : List PyVal) (hc : consultedOk (Except.ok ps) = true) :
    pyIsStr (ldStage ps notIndicated notIndicated notIndicated notIndicated).1 = true ∧
    pyIsStr (ldStage ps notIndicated notIndicated notIndicated notIndicated).2.1 = true ∧
    pyIsStr (ldStage ps notIndicated notIndicated notIndicated notIndicated).2.2.1 = true ∧
    pyIsStr (ldStage ps notIndicated notIndicated notIndicated notIndicated).2.2.2 = true := by
  cases ps with
  | nil => exact ⟨by decide, by decide, by decide, by decide⟩
  | cons p rest =>
    have hpc : productConsultedStrings p = true := by simpa [consultedOk] using hc
    unfold productConsultedStrings at hpc
    simp only [Bool.and_eq_true] at hpc
    obtain ⟨⟨hname, hsku⟩, hoff⟩ := hpc
    refine ⟨?_, ?_, ?_, ?_⟩
    · show pyIsStr (pyGetD p "name" notIndicated) = true
      exact valueIsStr_getD _ hname
    · show pyIsStr (pyGetD p "sku" notIndicated) = true
      exact valueIsStr_getD _ hsku
    · cases ho : pyGet p "offers" with
      | none => simp [ldStage, ho, pyIsStr, notIndicated]
      | some ov =>
        cases ov with
        | vdict o =>
          have heq : (ldStage (p :: rest) notIndicated notIndicated notIndicated
              notIndicated).2.2.1 = (o.lookup "price").getD notIndicated := by
            simp [ldStage, ho]
          rw [heq]
          apply valueIsStr_getD
          rw [ho] at hoff
          simp only [Bool.and_eq_true] at hoff
          exact hoff.1
        | vstr s => simp [ldStage, ho, pyIsStr, notIndicated]
        | vint n => simp [ldStage, ho, pyIsStr, notIndicated]
        | vbool b => simp [ldStage, ho, pyIsStr, notIndicated]
        | vnone => simp [ldStage, ho, pyIsStr, notIndicated]
        | vlist xs => simp [ldStage, ho, pyIsStr, notIndicated]
    · cases ho : pyGet p "offers" with
      | none => simp [ldStage, ho, pyIsStr, notIndicated]
      | some ov =>
        cases ov with
        | vdict o =>
          cases hsl : o.lookup "seller" with
          | none => simp [ldStage, ho, hsl, pyIsStr, notIndicated]
          | some sv =>
            cases sv with
            | vdict sl =>
              have heq : (ldStage (p :: rest) notIndicated notIndicated notIndicated
                  notIndicated).2.2.2 = (sl.lookup "name").getD notIndicated := by
                simp [ldStage, ho, hsl]
              rw [heq]
              apply valueIsStr_getD
              rw [ho] at hoff
              simp only [Bool.and_eq_true] at hoff
              have hsell := hoff.2
              rw [hsl] at hsell
              simpa using hsell
            | vstr s => simp [ldStage, ho, hsl, pyIsStr, notIndicated]
            | vint n => simp [ldStage, ho, hsl, pyIsStr, notIndicated]
            | vbool b => simp [ldStage, ho, hsl, pyIsStr, notIndicated]
            | vnone => simp [ldStage, ho, hsl, pyIsStr, notIndicated]
            | vlist xs => simp [ldStage, ho, hsl, pyIsStr, notIndicated]
        | vstr s => simp [ldStage, ho, pyIsStr, notIndicated]
        | vint n => simp [ldStage, ho, pyIsStr, notIndicated]
        | vbool b => simp [ldStage, ho, pyIsStr, notIndicated]
        | vnone => simp [ldStage, ho, pyIsStr, notIndicated]
        | vlist xs => simp [ldStage, ho, pyIsStr, notIndicated]

/-- The HTML-fallback stage preserves string-valued fields (its own
replacements are always strings). -/
theorem fallbackStage_strs (main : HNode) (n p se : PyVal)
    (hn : pyIsStr n = true) (hp : pyIsStr p = true) (hse : pyIsStr se = true) :
    pyIsStr (fallbackStage main n p se).1 = true ∧
    pyIsStr (fallbackStage main n p se).2.1 = true ∧
    pyIsStr (fallbackStage main n p se).2.2 = true := by
  refine ⟨?_, ?_, ?_⟩
  · rw [fallbackStage_name]
    split
    · simp [pyIsStr]
    · exact hn
  · rw [fallbackStage_price]
    split
    · simp [pyIsStr]
    · exact hp
  · unfold fallbackStage
    dsimp only
    repeat' split
    all_goals first
      | exact hse
      | simp [pyIsStr]

/-- `clean_price` maps string values to string values. -/
theorem clean_price_str (p pc : PyVal) (hp : pyIsStr p = true)
    (h : clean_price p = Except.ok pc) : pyIsStr pc = true := by
  obtain ⟨s, rfl⟩ := pyIsStr_exists p hp
  simp only [clean_price] at h
  split at h
  · rw [← Except.ok.inj h]
    decide
  · have h2 : Except.ok (PyVal.vstr (cleanPriceStr s)) = Except.ok pc := h
    rw [← Except.ok.inj h2]
    simp [pyIsStr]

/-- With string-valued consulted structured data, all four extracted
basic fields are string values. -/
theorem extract_strs (loads : String → Except Unit PyVal) (soup : HNode)
    (t4 : PyVal × PyVal × PyVal × PyVal)
    (ht : extract_basic_fields loads soup = Except.ok t4)
    (hc : consultedOk (find_product_objs_from_ldjson loads soup) = true) :
    pyIsStr t4.1 = true ∧ pyIsStr t4.2.1 = true ∧
    pyIsStr t4.2.2.1 = true ∧ pyIsStr t4.2.2.2 = true := by
  cases hp : find_product_objs_from_ldjson loads soup with
  | error e =>
    rw [extract_basic_fields_char, hp] at ht
    exact Except.noConfusion
      (show (Except.error e : Except Unit (PyVal × PyVal × PyVal × PyVal)) =
        Except.ok t4 from ht)
  | ok ps =>
    rw [hp] at hc
    obtain ⟨hn, hpr, hsk, hse⟩ := extract_components loads soup ps t4 hp ht
    obtain ⟨l1, l2, l3, l4⟩ := ldStage_strs ps hc
    obtain ⟨f1, f2, f3⟩ := fallbackStage_strs (mainContent soup) _ _ _ l1 l3 l4
    refine ⟨?_, ?_, ?_, ?_⟩
    · rw [hn]; exact f1
    · exact clean_price_str _ _ f2 hpr
    · rw [hsk]; exact l2
    · rw [hse]; exact f3

/-- Structure of a successful `parse_product` on a fetched page. -/
theorem parse_product_some (loads : String → Except Unit PyVal)
    (fetch : String → Option HNode) (url : String) (soup : HNode) (r : ProductRecord)
    (hf : fetch url = some soup) (h : parse_product loads fetch url = Except.ok r) :
    ∃ t4 w, extract_basic_fields loads soup = Except.ok t4 ∧
      extract_warranty_fields soup t4.1 = Except.ok w ∧
      r = { productTitle := pyOr t4.1 notIndicated, sku := pyOr t4.2.2.1 notIndicated,
            seller := pyOr t4.2.2.2 notIndicated, price := pyOr t4.2.1 notIndicated,
            warrantyTitle := strOr w.1 "Not indicated",
            warrantySpecs := strOr w.2.1 "Not indicated",
            warrantyAddress := strOr w.2.2 "Not indicated", productUrl := url } := by
  have hpp : parse_product loads fetch url = (do
      let t ← extract_basic_fields loads soup
      let w ← extract_warranty_fields soup t.1
      pure { productTitle := pyOr t.1 notIndicated, sku := pyOr t.2.2.1 notIndicated,
             seller := pyOr t.2.2.2 notIndicated, price := pyOr t.2.1 notIndicated,
             warrantyTitle := strOr w.1 "Not indicated",
             warrantySpecs := strOr w.2.1 "Not indicated",
             warrantyAddress := strOr w.2.2 "Not indicated", productUrl := url }) := by
    unfold parse_product
    rw [hf]
  replace h := hpp.symm.trans h
  cases he : extract_basic_fields loads soup with
  | error e =>
    rw [he] at h
    exact Except.noConfusion
      (show (Except.error e : Except Unit ProductRecord) = Except.ok r from h)
  | ok t4 =>
    rw [he] at h
    replace h : (do
        let w ← extract_warranty_fields soup t4.1
        pure { productTitle := pyOr t4.1 notIndicated, sku := pyOr t4.2.2.1 notIndicated,
               seller := pyOr t4.2.2.2 notIndicated, price := pyOr t4.2.1 notIndicated,
               warrantyTitle := strOr w.1 "Not indicated",
               warrantySpecs := strOr w.2.1 "Not indicated",
               warrantyAddress := strOr w.2.2 "Not indicated",
               productUrl := url } : Except Unit ProductRecord) = Except.ok r := h
    cases hw : extract_warranty_fields soup t4.1 with
    | error e =>
      rw [hw] at h
      exact Except.noConfusion
        (show (Except.error e : Except Unit ProductRecord) = Except.ok r from h)
    | ok w =>
      rw [hw] at h
      refine ⟨t4, w, rfl, hw, ?_⟩
      exact (Except.ok.inj (show Except.ok
        ({ productTitle := pyOr t4.1 notIndicated, sku := pyOr t4.2.2.1 notIndicated,
           seller := pyOr t4.2.2.2 notIndicated, price := pyOr t4.2.1 notIndicated,
           warrantyTitle := strOr w.1 "Not indicated",
           warrantySpecs := strOr w.2.1 "Not indicated",
           warrantyAddress := strOr w.2.2 "Not indicated",
           productUrl := url } : ProductRecord) = Except.ok r from h)).symm

/-- C1 counterexample: a numeric structured sku is passed through
unchanged, so a successfully produced record can carry a non-string
field. -/
theorem c1_counterexample :
    parse_product loadsSku fetchSku "u" = Except.ok c1SkuRecord ∧
    c1SkuRecord.sku = PyVal.vint 123 ∧ pyIsStr c1SkuRecord.sku = false :=
  ⟨by decide, by decide, by decide⟩

/-- C1 (amended): every field of a successfully produced record is
Python-truthy (never empty or null), the sentinel fields are guarded by
`or "Not indicated"`, and the URL field carries the input URL; all four
data fields are non-empty STRINGS whenever the structured values the
extractor consults are strings - a non-string structured value (such as a
numeric sku) is passed through unchanged. -/
theorem c1_record_fields (loads : String → Except Unit PyVal)
    (fetch : String → Option HNode) (url : String) (r : ProductRecord)
    (hok : parse_product loads fetch url = Except.ok r) :
    (pyTruthy r.productTitle = true ∧ pyTruthy r.sku = true ∧
     pyTruthy r.seller = true ∧ pyTruthy r.price = true ∧
     r.warrantyTitle ≠ "" ∧ r.warrantySpecs ≠ "" ∧ r.warrantyAddress ≠ "" ∧
     r.productUrl = url) ∧
    (∀ soup, fetch url = some soup →
      consultedOk (find_product_objs_from_ldjson loads soup) = true →
      (∃ a, r.productTitle = PyVal.vstr a ∧ a ≠ "") ∧
      (∃ b, r.sku = PyVal.vstr b ∧ b ≠ "") ∧
      (∃ c, r.seller = PyVal.vstr c ∧ c ≠ "") ∧
      (∃ d, r.price = PyVal.vstr d ∧ d ≠ "")) := by
  cases hf : fetch url with
  | none =>
    have he := parse_product_fetch_none loads fetch url hf
    have hr := Except.ok.inj (he.symm.trans hok)
    rw [← hr]
    constructor
    · exact ⟨rfl, rfl, rfl, rfl, by simp [errorRecord], by simp [errorRecord],
        by simp [errorRecord], rfl⟩
    · intro soup hs
      exact absurd hs (by simp)
  | some soup =>
    obtain ⟨t4, w, he, hw, hr⟩ := parse_product_some loads fetch url soup r hf hok
    subst hr
    constructor
    · exact ⟨pyOr_ni_truthy _, pyOr_ni_truthy _, pyOr_ni_truthy _, pyOr_ni_truthy _,
        strOr_ni_ne _, strOr_ni_ne _, strOr_ni_ne _, rfl⟩
    · intro soup2 hs hc
      have hsoup : soup2 = soup := (Option.some.inj hs).symm
      subst hsoup
      obtain ⟨h1, h2, h3, h4⟩ := extract_strs loads soup2 t4 he hc
      refine ⟨?_, ?_, ?_, ?_⟩
      · obtain ⟨s1, hs1⟩ := pyIsStr_exists _ h1
        show ∃ a, pyOr t4.1 notIndicated = PyVal.vstr a ∧ a ≠ ""
        rw [hs1]
        exact pyOr_vstr s1
      · obtain ⟨s1, hs1⟩ := pyIsStr_exists _ h3
        show ∃ b, pyOr t4.2.2.1 notIndicated = PyVal.vstr b ∧ b ≠ ""
        rw [hs1]
        exact pyOr_vstr s1
      · obtain ⟨s1, hs1⟩ := pyIsStr_exists _ h4
        show ∃ c, pyOr t4.2.2.2 notIndicated = PyVal.vstr c ∧ c ≠ ""
        rw [hs1]
        exact pyOr_vstr s1
      · obtain ⟨s1, hs1⟩ := pyIsStr_exists _ h2
        show ∃ d, pyOr t4.2.1 notIndicated = PyVal.vstr d ∧ d ≠ ""
        rw [hs1]
        exact pyOr_vstr s1

/-- Witness for C1 (amended): the string-valued-record page produces a
record with all fields truthy and the input URL. -/
theorem c1_record_fields_witness :
    parse_product loadsC4w fetchC4w "w" = Except.ok c1wRec ∧
    pyTruthy c1wRec.productTitle = true ∧ pyTruthy c1wRec.sku = true ∧
    pyTruthy c1wRec.seller = true ∧ pyTruthy c1wRec.price = true ∧
    c1wRec.productUrl = "w" := by
  have h := c1_record_fields loadsC4w fetchC4w "w" c1wRec (by decide)
  exact ⟨by decide, h.1.1, h.1.2.1, h.1.2.2.1, h.1.2.2.2.1, h.1.2.2.2.2.2.2.2⟩
